import Mathlib

/-!
Shallow embedding of the TVArgenta broadcast scheduler (`scheduler.py`) and of
the channel-switcher hot path (`app.py`), together with theorems settling the
frozen claims about them.

Modelling conventions:
* Python floats (durations, timestamps, schedule seconds) are modelled as exact
  rationals (`ℚ`).
* Python dicts keyed by strings are modelled as association lists
  (`List (String × _)`) or as functions `String → Option _`, whichever is
  closer to how the source uses them.
* Calls to the pseudo-random source (`random.shuffle`, `random.choice`,
  `random.randint`) are modelled by explicit parameters that supply the values
  the random source would produce (e.g. a family of shuffled commercial pools).
* Python `while` loops whose progress depends on data (the commercial-filling
  loops, the weekly slot-filling loop) are modelled with an explicit fuel
  argument; the theorems assume the fuel is large enough, which matches the
  termination assumptions of the source (positive commercial durations).
-/

/-- Segment/entry types appearing in daily-schedule entries
(`scheduler.py`, segment dicts created in `generate_block_schedule` and
`generate_daily_schedule`). -/
inductive SegType where
  | test_pattern
  | sponsors_placeholder
  | commercial
  | episode
deriving DecidableEq, Repr

/-- One episode record as produced by `get_series_episodes` (scheduler.py
lines 303-324). -/
structure Episode where
  video_id : String
  season : Int
  episode : Int
  duration : ℚ
  series_path : Option String
deriving DecidableEq, Repr

instance : Inhabited Episode := ⟨⟨"", 1, 1, 0, none⟩⟩

/-- One video record of `metadata.json`, restricted to the fields the
scheduler reads. -/
structure VideoMeta where
  category : String
  series : Option String
  season : Option Int
  episode : Option Int
  duracion : Option ℚ
  series_path : Option String
deriving DecidableEq, Repr

/-- `metadata.json` content: a dict keyed by `video_id`. -/
abbrev Metadata := List (String × VideoMeta)

/-- Python `x or d` for an optional integer field (`data.get("season") or 1`):
`None` and `0` are falsy and give the default. -/
def pyOrInt (v : Option Int) (d : Int) : Int :=
  match v with
  | none => d
  | some x => if x = 0 then d else x

/-- Python `x or d` for an optional float field (`data.get("duracion") or 0`):
`None` and `0.0` are falsy and give the default. -/
def pyOrRat (v : Option ℚ) (d : ℚ) : ℚ :=
  match v with
  | none => d
  | some x => if x = 0 then d else x

/-- The sort key of `episodes.sort(key=lambda e: (e["season"], e["episode"]))`:
lexicographic comparison on `(season, episode)`. -/
def episodeLE (a b : Episode) : Bool :=
  decide (a.season < b.season ∨ (a.season = b.season ∧ a.episode ≤ b.episode))

/-- `get_series_episodes` (scheduler.py lines 303-324): all `tv_episode`
records of the series, sorted chronologically by `(season, episode)`.
Python's stable `list.sort` is modelled by the stable `List.mergeSort`. -/
def get_series_episodes (series_name : String) (metadata : Metadata) : List Episode :=
  (metadata.filterMap (fun p =>
    if p.2.category = "tv_episode" ∧ p.2.series = some series_name then
      some { video_id := p.1
             season := pyOrInt p.2.season 1
             episode := pyOrInt p.2.episode 1
             duration := pyOrRat p.2.duracion 0
             series_path := p.2.series_path }
    else none)).mergeSort episodeLE

/-- One commercial record as produced by `get_commercials` (scheduler.py
lines 327-343). -/
structure Commercial where
  video_id : String
  duration : ℚ
deriving DecidableEq, Repr

instance : Inhabited Commercial := ⟨⟨"", 30⟩⟩

/-- `get_commercials` (scheduler.py lines 327-343): all `commercial` records;
duration defaults to 30 when unknown (or 0.0, which is falsy). -/
def get_commercials (metadata : Metadata) : List Commercial :=
  metadata.filterMap (fun p =>
    if p.2.category = "commercial" then
      some { video_id := p.1, duration := pyOrRat p.2.duracion 30 }
    else none)

/-- One cursor record of `episode_cursors.json` (the `updated_at` timestamp
string is irrelevant to the semantics and omitted). -/
structure Cursor where
  season : Int
  episode : Int
  last_index : Int
deriving DecidableEq, Repr

/-- `episode_cursors.json` content: `channel_id → series → cursor`. -/
abbrev Cursors := String → String → Option Cursor

/-- The `last_index` read with default `-1`
(`series_cursor.get("last_index", -1)`, and the default cursor dict
`{"season": 1, "episode": 0, "last_index": -1}`). -/
def cursorLastIndex (c : Option Cursor) : Int :=
  match c with
  | some cur => cur.last_index
  | none => -1

/-- `get_next_episode_for_channel` (scheduler.py lines 455-502): advances the
cursor and returns the next episode, wrapping modulo the episode count.
The cursor store is threaded explicitly instead of being mutated in place. -/
def get_next_episode_for_channel (channel_id series_name : String)
    (cursors : Cursors) (metadata : Metadata) : Option Episode × Cursors :=
  let episodes := get_series_episodes series_name metadata
  if episodes = [] then (none, cursors)
  else
    let current_index := cursorLastIndex (cursors channel_id series_name)
    let next_index := (current_index + 1) % (episodes.length : Int)
    let next_episode := episodes.getD next_index.toNat default
    let cursors' : Cursors := fun c s =>
      if c = channel_id ∧ s = series_name then
        some { season := next_episode.season, episode := next_episode.episode,
               last_index := next_index }
      else cursors c s
    (some next_episode, cursors')

/-- `peek_next_episode_for_channel` (scheduler.py lines 505-527): like advance
but without mutating the cursor; `offset` selects episodes further ahead. -/
def peek_next_episode_for_channel (channel_id series_name : String) (offset : Int)
    (cursors : Cursors) (metadata : Metadata) : Option Episode :=
  let episodes := get_series_episodes series_name metadata
  if episodes = [] then none
  else
    let current_index := cursorLastIndex (cursors channel_id series_name)
    let peek_index := (current_index + 1 + offset) % (episodes.length : Int)
    some (episodes.getD peek_index.toNat default)

/-- The state transformer of one cursor advance for a fixed channel and
series (the second component of `get_next_episode_for_channel`). -/
def advanceCursors (channel_id series_name : String) (metadata : Metadata)
    (cursors : Cursors) : Cursors :=
  (get_next_episode_for_channel channel_id series_name cursors metadata).2

lemma mergeSort_ne_nil {α : Type} {le : α → α → Bool} {l : List α}
    (h : l ≠ []) : l.mergeSort le ≠ [] := by
  intro h2
  have hp := List.mergeSort_perm l le
  rw [h2] at hp
  exact h hp.symm.eq_nil

lemma episodeLE_trans (a b c : Episode) (h1 : episodeLE a b = true)
    (h2 : episodeLE b c = true) : episodeLE a c = true := by
  simp only [episodeLE, decide_eq_true_iff] at *
  rcases h1 with h1 | ⟨h1, h1'⟩ <;> rcases h2 with h2 | ⟨h2, h2'⟩
  · exact Or.inl (h1.trans h2)
  · exact Or.inl (h2 ▸ h1)
  · exact Or.inl (h1 ▸ h2)
  · exact Or.inr ⟨h1.trans h2, h1'.trans h2'⟩

lemma episodeLE_total (a b : Episode) : (episodeLE a b || episodeLE b a) = true := by
  simp only [episodeLE, Bool.or_eq_true, decide_eq_true_iff]
  omega

/-- After one advance on a series with episodes, the stored `last_index`
for that channel and series is `(previous + 1) % N`. -/
lemma advance_last_index (cid s : String) (metadata : Metadata) (cursors : Cursors)
    (h : get_series_episodes s metadata ≠ []) :
    cursorLastIndex (advanceCursors cid s metadata cursors cid s) =
      (cursorLastIndex (cursors cid s) + 1) % ((get_series_episodes s metadata).length : Int) := by
  simp [advanceCursors, get_next_episode_for_channel, h, cursorLastIndex]

lemma emod_add_left_reduce (x y N : Int) : ((x % N) + y) % N = (x + y) % N := by
  conv_lhs => rw [Int.emod_def x N]
  have h : x - N * (x / N) + y = (x + y) + N * (-(x / N)) := by ring
  rw [h, Int.add_mul_emod_self_left]

/-- After `n + 1` advances the stored `last_index` is
`(previous + n + 1) % N`. -/
lemma advance_iter_last_index (cid s : String) (metadata : Metadata)
    (h : get_series_episodes s metadata ≠ []) (n : ℕ) (cursors : Cursors) :
    cursorLastIndex (((advanceCursors cid s metadata)^[n + 1] cursors) cid s) =
      (cursorLastIndex (cursors cid s) + (n + 1)) %
        ((get_series_episodes s metadata).length : Int) := by
  induction n generalizing cursors with
  | zero => simpa using advance_last_index cid s metadata cursors h
  | succ m ih =>
    rw [Function.iterate_succ_apply]
    rw [ih (advanceCursors cid s metadata cursors)]
    rw [advance_last_index cid s metadata cursors h]
    push_cast
    rw [emod_add_left_reduce]
    congr 1
    ring

/-- Claim C5: `advance(channel, series)` returns the episode at index
`(last_index + 1) mod N` of the chronologically sorted episode list, writes
`last_index ← (last_index + 1) mod N`, and after `N` consecutive advances the
stored cursor index equals its value before the `N` advances (mod `N`). -/
theorem claim_C5_cursor_advance (cid s : String) (cursors : Cursors) (metadata : Metadata)
    (h : get_series_episodes s metadata ≠ []) :
    (get_next_episode_for_channel cid s cursors metadata).1 =
        some ((get_series_episodes s metadata).getD
          ((cursorLastIndex (cursors cid s) + 1) %
            ((get_series_episodes s metadata).length : Int)).toNat default)
    ∧ cursorLastIndex ((get_next_episode_for_channel cid s cursors metadata).2 cid s) =
        (cursorLastIndex (cursors cid s) + 1) %
          ((get_series_episodes s metadata).length : Int)
    ∧ List.Pairwise (fun a b => episodeLE a b = true) (get_series_episodes s metadata)
    ∧ cursorLastIndex
        (((advanceCursors cid s metadata)^[(get_series_episodes s metadata).length] cursors) cid s) =
        cursorLastIndex (cursors cid s) %
          ((get_series_episodes s metadata).length : Int) := by
  have hN : 0 < (get_series_episodes s metadata).length := List.length_pos.2 h
  refine ⟨?_, ?_, ?_, ?_⟩
  · simp [get_next_episode_for_channel, h]
  · simp [get_next_episode_for_channel, h, cursorLastIndex]
  · exact List.sorted_mergeSort episodeLE_trans episodeLE_total _
  · obtain ⟨m, hm⟩ : ∃ m, (get_series_episodes s metadata).length = m + 1 :=
      ⟨(get_series_episodes s metadata).length - 1, by omega⟩
    rw [hm, advance_iter_last_index cid s metadata h m cursors]
    have hcast : ((get_series_episodes s metadata).length : Int) = (m : Int) + 1 := by
      rw [hm]; push_cast; ring
    rw [hcast]
    push_cast
    simp

/-- A concrete metadata store with one three-episode series, used by the
cursor witnesses. -/
def mdCursor : Metadata :=
  [ ("ep3", { category := "tv_episode", series := some "Test_Series_A",
              season := some 1, episode := some 3, duracion := some 1200,
              series_path := some "Test_Series_A/ep3" }),
    ("ep1", { category := "tv_episode", series := some "Test_Series_A",
              season := some 1, episode := some 1, duracion := some 1200,
              series_path := some "Test_Series_A/ep1" }),
    ("ep2", { category := "tv_episode", series := some "Test_Series_A",
              season := some 1, episode := some 2, duracion := some 1200,
              series_path := some "Test_Series_A/ep2" }) ]

lemma mdCursor_episodes_ne_nil : get_series_episodes "Test_Series_A" mdCursor ≠ [] := by
  unfold get_series_episodes
  apply mergeSort_ne_nil
  simp [mdCursor]

/-- Witness for C5 at a concrete three-episode series and empty cursor store. -/
theorem claim_C5_cursor_advance_witness :
    get_series_episodes "Test_Series_A" mdCursor ≠ [] ∧
    cursorLastIndex
        (((advanceCursors "ch1" "Test_Series_A" mdCursor)^[(get_series_episodes "Test_Series_A" mdCursor).length]
          (fun _ _ => none)) "ch1" "Test_Series_A") =
      cursorLastIndex ((fun _ _ => (none : Option Cursor)) "ch1" "Test_Series_A") %
        ((get_series_episodes "Test_Series_A" mdCursor).length : Int) :=
  ⟨mdCursor_episodes_ne_nil,
    (claim_C5_cursor_advance "ch1" "Test_Series_A" (fun _ _ => none) mdCursor
      mdCursor_episodes_ne_nil).2.2.2⟩

/-- Claim C10: for any stored cursor value (including stale, negative or
out-of-range ones) both peek and advance compute an index reduced modulo `N`
into `[0, N)` and return an episode that belongs to the series' episode list;
no out-of-range access is possible. -/
theorem claim_C10_cursor_total (cid s : String) (offset : Int) (cursors : Cursors)
    (metadata : Metadata) (h : get_series_episodes s metadata ≠ []) :
    (0 ≤ (cursorLastIndex (cursors cid s) + 1 + offset) %
          ((get_series_episodes s metadata).length : Int) ∧
       (cursorLastIndex (cursors cid s) + 1 + offset) %
          ((get_series_episodes s metadata).length : Int) <
          ((get_series_episodes s metadata).length : Int))
    ∧ (∃ e, peek_next_episode_for_channel cid s offset cursors metadata = some e ∧
        e ∈ get_series_episodes s metadata)
    ∧ (∃ e, (get_next_episode_for_channel cid s cursors metadata).1 = some e ∧
        e ∈ get_series_episodes s metadata) := by
  have hN : 0 < (get_series_episodes s metadata).length := List.length_pos.2 h
  have hNZ : ((get_series_episodes s metadata).length : Int) ≠ 0 := by omega
  have hbounds : ∀ i : Int, 0 ≤ i % ((get_series_episodes s metadata).length : Int) ∧
      i % ((get_series_episodes s metadata).length : Int) <
        ((get_series_episodes s metadata).length : Int) :=
    fun i => ⟨Int.emod_nonneg i hNZ, Int.emod_lt_of_pos i (by omega)⟩
  have hmem : ∀ i : Int,
      (get_series_episodes s metadata).getD
          (i % ((get_series_episodes s metadata).length : Int)).toNat default ∈
        get_series_episodes s metadata := by
    intro i
    have hb := hbounds i
    have hlt : (i % ((get_series_episodes s metadata).length : Int)).toNat <
        (get_series_episodes s metadata).length := by omega
    rw [List.getD_eq_getElem _ _ hlt]
    exact List.getElem_mem hlt
  refine ⟨hbounds _, ?_, ?_⟩
  · refine ⟨(get_series_episodes s metadata).getD
        ((cursorLastIndex (cursors cid s) + 1 + offset) %
          ((get_series_episodes s metadata).length : Int)).toNat default, ?_, hmem _⟩
    simp [peek_next_episode_for_channel, h]
  · refine ⟨(get_series_episodes s metadata).getD
        ((cursorLastIndex (cursors cid s) + 1) %
          ((get_series_episodes s metadata).length : Int)).toNat default, ?_, hmem _⟩
    simp [get_next_episode_for_channel, h]

/-- Witness for C10 at a concrete three-episode series and a stale negative
cursor value. -/
theorem claim_C10_cursor_total_witness :
    get_series_episodes "Test_Series_A" mdCursor ≠ [] ∧
    (∃ e, peek_next_episode_for_channel "ch1" "Test_Series_A" 0
        (fun _ _ => some ⟨1, 1, -7⟩) mdCursor = some e ∧
      e ∈ get_series_episodes "Test_Series_A" mdCursor) :=
  ⟨mdCursor_episodes_ne_nil,
    (claim_C10_cursor_total "ch1" "Test_Series_A" 0 (fun _ _ => some ⟨1, 1, -7⟩)
      mdCursor mdCursor_episodes_ne_nil).2.1⟩

/-- One daily-schedule segment dict (`scheduler.py`); `end` is written `end_`.
Entries created without an explicit `base_timestamp` key (test-pattern blocks)
carry `0`, matching the `entry.get("base_timestamp", 0)` read in the lookup. -/
structure Entry where
  start : ℚ
  end_ : ℚ
  type : SegType
  video_id : String
  series_path : Option String
  base_timestamp : ℚ
deriving DecidableEq, Repr

/-- Result dict of `get_scheduled_content` (scheduler.py lines 1117-1189). -/
structure LookupResult where
  type : SegType
  video_id : String
  video_url : String
  seek_to : ℚ
deriving DecidableEq, Repr

/-- Conversion of a local wall-clock time to seconds since today's 03:00
(scheduler.py lines 1144-1153); hours before 3 map into the tail of the
current (yesterday-started) schedule day. -/
def seconds_since_3am (hour minute second : ℕ) : ℕ :=
  if hour < 3 then (24 - 3) * 3600 + hour * 3600 + minute * 60 + second
  else (hour - 3) * 3600 + minute * 60 + second

/-- The video-URL derivation by segment type (scheduler.py lines 1168-1179). -/
def entry_video_url (e : Entry) : String :=
  match e.type with
  | .test_pattern => "/videos/system/test_pattern.mp4"
  | .sponsors_placeholder => "/videos/system/sponsors_placeholder.mp4"
  | .commercial => "/videos/commercials/" ++ e.video_id ++ ".mp4"
  | .episode =>
    match e.series_path with
    | some p => "/videos/" ++ p ++ ".mp4"
    | none => "/videos/" ++ e.video_id ++ ".mp4"

/-- The test-pattern fallback result of `get_scheduled_content`. -/
def lookupFallback : LookupResult :=
  { type := .test_pattern, video_id := "__test_pattern__",
    video_url := "/videos/system/test_pattern.mp4", seek_to := 0 }

/-- `get_scheduled_content` (scheduler.py lines 1117-1189). The daily-schedule
cache is modelled by `channels`, mapping a channel id to its segment list; a
missing schedule or unknown channel is the `[]` case. The linear scan
`for entry in channel_entries` returning the first entry whose
`[start, end)` range contains the current second is `List.find?`. -/
def get_scheduled_content (channels : String → List Entry) (channel_id : String)
    (hour minute second : ℕ) : LookupResult :=
  let channel_entries := channels channel_id
  if channel_entries = [] then lookupFallback
  else
    let s : ℚ := (seconds_since_3am hour minute second : ℚ)
    match channel_entries.find? (fun e => decide (e.start ≤ s ∧ s < e.end_)) with
    | some e =>
        { type := e.type, video_id := e.video_id, video_url := entry_video_url e,
          seek_to := e.base_timestamp + (s - e.start) }
    | none => lookupFallback

/-- Claim C7: lookup converts local time to seconds since 03:00, with
`hour < 3` mapped by `s = (24-3)*3600 + hour*3600 + minute*60 + second`, and
for the (unique) segment whose `[start, end)` range contains `s` it returns
`seek_to = base_timestamp + (s - start)`. -/
theorem claim_C7_lookup_seek (channels : String → List Entry) (cid : String)
    (hour minute second : ℕ) (e : Entry)
    (hmem : e ∈ channels cid)
    (hlo : e.start ≤ ((seconds_since_3am hour minute second : ℕ) : ℚ))
    (hhi : ((seconds_since_3am hour minute second : ℕ) : ℚ) < e.end_)
    (huniq : ∀ e' ∈ channels cid,
      e'.start ≤ ((seconds_since_3am hour minute second : ℕ) : ℚ) →
      ((seconds_since_3am hour minute second : ℕ) : ℚ) < e'.end_ → e' = e) :
    (hour < 3 → seconds_since_3am hour minute second
        = (24 - 3) * 3600 + hour * 3600 + minute * 60 + second)
    ∧ get_scheduled_content channels cid hour minute second
        = { type := e.type, video_id := e.video_id, video_url := entry_video_url e,
            seek_to := e.base_timestamp +
              (((seconds_since_3am hour minute second : ℕ) : ℚ) - e.start) } := by
  constructor
  · intro h3
    simp [seconds_since_3am, h3]
  · have hne : channels cid ≠ [] := by
      intro h0
      rw [h0] at hmem
      simp at hmem
    have hsome : (List.find?
        (fun e' => decide (e'.start ≤ ((seconds_since_3am hour minute second : ℕ) : ℚ)) &&
          decide (((seconds_since_3am hour minute second : ℕ) : ℚ) < e'.end_))
        (channels cid)).isSome := by
      rw [List.find?_isSome]
      exact ⟨e, hmem, by simp [hlo, hhi]⟩
    obtain ⟨e', hfind⟩ := Option.isSome_iff_exists.mp hsome
    have hp := List.find?_some hfind
    simp only [Bool.and_eq_true, decide_eq_true_iff] at hp
    have heq := huniq e' (List.mem_of_find?_eq_some hfind) hp.1 hp.2
    subst heq
    simp [get_scheduled_content, hne, hfind]

/-- A concrete two-segment schedule for the lookup witness. -/
def entriesC7 : List Entry :=
  [ { start := 0, end_ := 3600, type := .test_pattern, video_id := "__test_pattern__",
      series_path := none, base_timestamp := 0 },
    { start := 3600, end_ := 5400, type := .commercial, video_id := "c1",
      series_path := none, base_timestamp := 0 } ]

/-- Witness for C7: lookup at 04:00:30 inside the second segment. -/
theorem claim_C7_lookup_seek_witness :
    entriesC7[1] ∈ (fun c => if c = "ch7" then entriesC7 else []) "ch7" ∧
    get_scheduled_content (fun c => if c = "ch7" then entriesC7 else []) "ch7" 4 0 30
      = { type := .commercial, video_id := "c1", video_url := entry_video_url entriesC7[1],
          seek_to := entriesC7[1].base_timestamp +
            (((seconds_since_3am 4 0 30 : ℕ) : ℚ) - entriesC7[1].start) } :=
  ⟨by decide,
    (claim_C7_lookup_seek (fun c => if c = "ch7" then entriesC7 else []) "ch7" 4 0 30
      entriesC7[1] (by decide) (by decide) (by decide) (by decide)).2⟩

/-- `MIN_GAP_SEC = max(0, int(config.get("min_gap_minutes", 60))) * 60`
(app.py, `api_next_video`). -/
def min_gap_sec (min_gap_minutes : Option Int) : ℚ :=
  ((max 0 (min_gap_minutes.getD 60) : Int) : ℚ) * 60

/-- The test `_age_seconds(vid) >= MIN_GAP_SEC` of app.py. The age is an
optional rational: `none` models `float('inf')` (no play record, missing or
unparseable `last_played`, i.e. `last_ts == 0`), which passes every gap. -/
def gapPassB (gap : ℚ) (age : Option ℚ) : Bool :=
  match age with
  | none => true
  | some a => decide (gap ≤ a)

/-- The gap filter of `api_next_video` (app.py lines 1686-1714): drop every
candidate played less than `gap` seconds ago; if that empties the set, fall
back to the same too-fresh candidates sorted by greatest age first
(`sorted(candidatos_frescos, key=lambda t: -age)`, a stable sort modelled by
`List.mergeSort`). -/
def gap_filter (gap : ℚ) (age : String → Option ℚ) (candidatos : List String) :
    List String :=
  let candidatos_ok := candidatos.filter (fun v => gapPassB gap (age v))
  let candidatos_frescos := candidatos.filter (fun v => ! gapPassB gap (age v))
  if candidatos_ok = [] ∧ candidatos_frescos ≠ [] then
    candidatos_frescos.mergeSort (fun a b => decide ((age b).getD 0 ≤ (age a).getD 0))
  else candidatos_ok

/-- Claim C8: the gap filter drops candidates played less than
`min_gap_minutes` ago; when the filter would empty a non-empty candidate set,
the dropped candidates are used instead, sorted by greatest age first; the
selection pool is never emptied by the gap filter alone. -/
theorem claim_C8_gap_filter (G : Option Int) (age : String → Option ℚ)
    (cands : List String) (hne : cands ≠ []) :
    (cands.filter (fun v => gapPassB (min_gap_sec G) (age v)) ≠ [] →
      gap_filter (min_gap_sec G) age cands
          = cands.filter (fun v => gapPassB (min_gap_sec G) (age v))
        ∧ ∀ v ∈ cands, ∀ a, age v = some a → a < min_gap_sec G →
            v ∉ gap_filter (min_gap_sec G) age cands)
    ∧ (cands.filter (fun v => gapPassB (min_gap_sec G) (age v)) = [] →
        (gap_filter (min_gap_sec G) age cands).Perm
            (cands.filter (fun v => ! gapPassB (min_gap_sec G) (age v)))
          ∧ List.Pairwise (fun a b => (age b).getD 0 ≤ (age a).getD 0)
              (gap_filter (min_gap_sec G) age cands))
    ∧ gap_filter (min_gap_sec G) age cands ≠ [] := by
  have hpart : cands.filter (fun v => gapPassB (min_gap_sec G) (age v)) = [] →
      cands.filter (fun v => ! gapPassB (min_gap_sec G) (age v)) ≠ [] := by
    intro hok
    obtain ⟨c, cs, rfl⟩ := List.exists_cons_of_ne_nil hne
    by_cases hc : gapPassB (min_gap_sec G) (age c) = true
    · exfalso
      have : c ∈ List.filter (fun v => gapPassB (min_gap_sec G) (age v)) (c :: cs) :=
        List.mem_filter.2 ⟨List.mem_cons_self c cs, hc⟩
      rw [hok] at this
      simp at this
    · intro hfr
      have : c ∈ List.filter (fun v => ! gapPassB (min_gap_sec G) (age v)) (c :: cs) :=
        List.mem_filter.2 ⟨List.mem_cons_self c cs, by simp [hc]⟩
      rw [hfr] at this
      simp at this
  refine ⟨?_, ?_, ?_⟩
  · intro hok
    have hres : gap_filter (min_gap_sec G) age cands
        = cands.filter (fun v => gapPassB (min_gap_sec G) (age v)) := by
      unfold gap_filter
      rw [if_neg]
      simp [hok]
    refine ⟨hres, ?_⟩
    intro v _ a hage hlt hv
    rw [hres] at hv
    have := (List.mem_filter.1 hv).2
    rw [hage] at this
    simp only [gapPassB, decide_eq_true_iff] at this
    exact absurd this (not_le.2 hlt)
  · intro hok
    have hfr := hpart hok
    have hres : gap_filter (min_gap_sec G) age cands
        = (cands.filter (fun v => ! gapPassB (min_gap_sec G) (age v))).mergeSort
            (fun a b => decide ((age b).getD 0 ≤ (age a).getD 0)) := by
      unfold gap_filter
      rw [if_pos ⟨hok, hfr⟩]
    rw [hres]
    refine ⟨List.mergeSort_perm _ _, ?_⟩
    have hsorted := @List.sorted_mergeSort String
      (fun a b : String => decide ((age b).getD 0 ≤ (age a).getD 0))
      (fun a b c hab hbc => by
        simp only [decide_eq_true_iff] at *
        exact le_trans hbc hab)
      (fun a b => by
        simp only [Bool.or_eq_true, decide_eq_true_iff]
        exact le_total _ _)
      (cands.filter (fun v => ! gapPassB (min_gap_sec G) (age v)))
    exact hsorted.imp (fun h => by simpa using h)
  · by_cases hok : cands.filter (fun v => gapPassB (min_gap_sec G) (age v)) = []
    · have hfr := hpart hok
      unfold gap_filter
      rw [if_pos ⟨hok, hfr⟩]
      exact mergeSort_ne_nil hfr
    · unfold gap_filter
      rw [if_neg]
      · exact hok
      · simp [hok]

/-- Witness for C8: five candidates all played 10 minutes ago with a
60-minute gap; the filter relaxes instead of returning nothing. -/
theorem claim_C8_gap_filter_witness :
    (["v1", "v2", "v3", "v4", "v5"] : List String) ≠ [] ∧
    gap_filter (min_gap_sec (some 60)) (fun _ => some 600)
      ["v1", "v2", "v3", "v4", "v5"] ≠ [] :=
  ⟨by decide,
    (claim_C8_gap_filter (some 60) (fun _ => some 600) ["v1", "v2", "v3", "v4", "v5"]
      (by decide)).2.2⟩

/-- One record of `plays.json`: `{"plays": int, "last_played": iso-string}`. -/
structure PlayRec where
  plays : Int
  last_played : Option String
deriving DecidableEq, Repr

/-- `plays.json` content: a dict keyed by `video_id`, modelled as an
association list with unique keys (dict semantics). -/
abbrev PlaysStore := List (String × PlayRec)

/-- Dict read `d.get(video_id)`. -/
def plays_lookup (d : PlaysStore) (video_id : String) : Option PlayRec :=
  (d.find? (fun p => decide (p.1 = video_id))).map (fun p => p.2)

/-- Dict write `d[video_id] = item`: replace an existing binding or append a
new one. -/
def plays_set (d : PlaysStore) (video_id : String) (r : PlayRec) : PlaysStore :=
  if d.any (fun p => decide (p.1 = video_id)) then
    d.map (fun p => if p.1 = video_id then (video_id, r) else p)
  else d ++ [(video_id, r)]

/-- The plays-store effect of `api_played` (app.py lines 2752-2775):
`item = d.get(video_id, {"plays": 0, "last_played": None})`, increment
`plays`, stamp `last_played`, write back, save. (The handler also clears any
matching pending pick; that touches a different store and is not part of
this claim.) -/
def api_played_update (d : PlaysStore) (video_id : String) (now_iso : String) :
    PlaysStore :=
  let item := (plays_lookup d video_id).getD { plays := 0, last_played := none }
  plays_set d video_id { plays := item.plays + 1, last_played := some now_iso }

/-- Claim C9, counterexample: a `played` event for a video id with no
existing plays record is not a no-op — it changes the (empty) plays store. -/
theorem claim_C9_counterexample :
    plays_lookup [] "mystery_id" = none ∧
    api_played_update [] "mystery_id" "2026-10-12T00:00:00" ≠ [] := by
  constructor
  · rfl
  · simp [api_played_update, plays_set, plays_lookup]

/-- Claim C9, amended: a `played` event for an unknown `video_id` is not a
no-op; it creates a fresh record with `plays = 1` and `last_played` the event
time, leaving every other key unchanged. -/
theorem claim_C9_amended (d : PlaysStore) (vid t : String)
    (h : plays_lookup d vid = none) :
    plays_lookup (api_played_update d vid t) vid
        = some { plays := 1, last_played := some t }
    ∧ ∀ v, v ≠ vid → plays_lookup (api_played_update d vid t) v = plays_lookup d v := by
  have hfind : d.find? (fun p => decide (p.1 = vid)) = none := by
    by_contra hf
    obtain ⟨p, hp⟩ := Option.ne_none_iff_exists'.mp hf
    rw [plays_lookup, hp] at h
    simp at h
  have hany : d.any (fun p => decide (p.1 = vid)) = false := by
    rw [List.any_eq_false]
    intro p hp
    have := List.find?_eq_none.1 hfind p hp
    simpa using this
  have happ : api_played_update d vid t
      = d ++ [(vid, { plays := 1, last_played := some t })] := by
    unfold api_played_update plays_set
    rw [plays_lookup, hfind]
    simp [hany]
  constructor
  · rw [happ, plays_lookup, List.find?_append, hfind]
    simp
  · intro v hv
    rw [happ, plays_lookup, List.find?_append]
    have hsingle : List.find? (fun p => decide (p.1 = v))
        [(vid, ({ plays := 1, last_played := some t } : PlayRec))] = none := by
      simp [Ne.symm hv]
    rw [hsingle, Option.or_none, plays_lookup]

/-- Witness for C9 amended: the unknown id gains a `plays = 1` record. -/
theorem claim_C9_amended_witness :
    plays_lookup [] "mystery_id" = none ∧
    plays_lookup (api_played_update [] "mystery_id" "2026-10-12T00:00:00") "mystery_id"
      = some { plays := 1, last_played := some "2026-10-12T00:00:00" } :=
  ⟨rfl, (claim_C9_amended [] "mystery_id" "2026-10-12T00:00:00" rfl).1⟩

/-- Anti-bounce window constants of app.py (lines 234-240): cooldown 0.5 s,
sticky 1.0 s, pending-pick TTL 12 s. -/
def NEXT_COOLDOWN : ℚ := 1/2

def STICKY_WINDOW : ℚ := 1

def PENDING_TTL : ℚ := 12

/-- A per-channel pick record (`{"video_id": str, "ts": float}`) used by both
`pending_pick` and `last_choice_per_canal`. -/
structure PickState where
  video_id : String
  ts : ℚ
deriving DecidableEq, Repr

/-- The state `api_next_video` reads for one library channel before picking:
the consumed force-next flag, the current time, the channel's pending pick,
its last choice (sticky record), the time of the last served call
(`last_next_call.get(canal_id, 0.0)` folded in), and whether the sticky
video id has a (truthy) metadata record. -/
structure NVEnv where
  force_next : Bool
  now : ℚ
  pending_pick : Option PickState
  last_choice : Option PickState
  last_next_call : ℚ
  sticky_in_metadata : Bool
deriving DecidableEq, Repr

/-- The reply class of the anti-bounce part of `api_next_video`:
`reused` (de-dupe hit, `reused:true`), `stickyReply` (`sticky:true`),
`cooldown` (`{cooldown:true}`), or `proceed` to the fairness pick. -/
inductive NVOutcome where
  | reused (video_id : String)
  | stickyReply (video_id : String)
  | cooldown
  | proceed
deriving DecidableEq, Repr

/-- De-dupe guard (app.py lines 1579-1599): fires when force-next is absent
and a pending pick is fresher than `PENDING_TTL`. -/
def dedupe_check (env : NVEnv) : Option NVOutcome :=
  match env.pending_pick with
  | some pp =>
      if env.force_next = false ∧ env.now - pp.ts < PENDING_TTL then
        some (.reused pp.video_id)
      else none
  | none => none

/-- Sticky guard (app.py lines 1601-1623): fires when force-next is absent,
the last choice is fresher than `STICKY_WINDOW`, and the chosen video still
has a metadata record (`if elegido_data:`; otherwise the handler falls
through without replying). -/
def sticky_check (env : NVEnv) : Option NVOutcome :=
  match env.last_choice with
  | some sticky =>
      if env.force_next = false ∧ env.now - sticky.ts < STICKY_WINDOW then
        if env.sticky_in_metadata then some (.stickyReply sticky.video_id) else none
      else none
  | none => none

/-- Cooldown guard (app.py lines 1625-1630): fires when force-next is absent,
the last served call is fresher than `NEXT_COOLDOWN`, and a sticky record
exists whose age is at least `STICKY_WINDOW`. -/
def cooldown_check (env : NVEnv) : Option NVOutcome :=
  match env.last_choice with
  | some sticky =>
      if env.force_next = false ∧ env.now - env.last_next_call < NEXT_COOLDOWN ∧
          STICKY_WINDOW ≤ env.now - sticky.ts then
        some .cooldown
      else none
  | none => none

/-- The anti-bounce gate of `api_next_video` in source order: the de-dupe
check runs first, then sticky, then cooldown, then the fairness pick. -/
def next_video_guards (env : NVEnv) : NVOutcome :=
  match dedupe_check env with
  | some r => r
  | none =>
    match sticky_check env with
    | some r => r
    | none =>
      match cooldown_check env with
      | some r => r
      | none => .proceed

/-- The concrete C3 scenario: no force-next, a pick made 1 s ago (pending,
unconfirmed) whose sticky record is 0.5 s old. -/
def envC3 : NVEnv :=
  { force_next := false, now := 10,
    pending_pick := some { video_id := "vid1", ts := 9 },
    last_choice := some { video_id := "vid1", ts := 19/2 },
    last_next_call := 19/2, sticky_in_metadata := true }

/-- Claim C3, counterexample: with both a sticky pick (0.5 s < 1.0 s) and a
fresh pending pick (1 s < 12 s) present and no force-next, the code replies
with the de-dupe (`reused`) reply, not the sticky reply: the de-dupe check
runs before the sticky check. -/
theorem claim_C3_counterexample :
    next_video_guards envC3 = NVOutcome.reused "vid1" ∧
    next_video_guards envC3 ≠ NVOutcome.stickyReply "vid1" := by
  have hmain : next_video_guards envC3 = NVOutcome.reused "vid1" := by
    norm_num [next_video_guards, dedupe_check, envC3, PENDING_TTL]
  exact ⟨hmain, by rw [hmain]; exact fun hEq => NVOutcome.noConfusion hEq⟩

/-- Claim C3, amended: the anti-bounce checks run in the order de-dupe →
sticky → cooldown; when force-next is absent and both a sticky pick (within
`STICKY_WINDOW`) and a fresh pending pick (within `PENDING_TTL`) exist, the
reply is the de-dupe reply (the pending pick, `reused:true`). -/
theorem claim_C3_amended (env : NVEnv) (pp sp : PickState)
    (hf : env.force_next = false)
    (hp : env.pending_pick = some pp) (hfresh : env.now - pp.ts < PENDING_TTL)
    (_hs : env.last_choice = some sp) (_hsw : env.now - sp.ts < STICKY_WINDOW) :
    next_video_guards env = NVOutcome.reused pp.video_id := by
  unfold next_video_guards dedupe_check
  rw [hp]
  simp [hf, hfresh]

/-- Witness for C3 amended at the concrete scenario. -/
theorem claim_C3_amended_witness :
    envC3.force_next = false ∧
    next_video_guards envC3 = NVOutcome.reused "vid1" :=
  ⟨rfl, claim_C3_amended envC3 { video_id := "vid1", ts := 9 }
    { video_id := "vid1", ts := 19/2 } rfl rfl (by norm_num [envC3, PENDING_TTL])
    rfl (by norm_num [envC3, STICKY_WINDOW])⟩

/-- One record of `series.json`, restricted to the field the planner reads. -/
structure SeriesInfo where
  time_of_day : Option String
deriving DecidableEq, Repr

/-- `series.json` content keyed by series folder name. -/
abbrev SeriesData := String → Option SeriesInfo

/-- `series_data.get(series_name, {}).get("time_of_day", "any")`
(scheduler.py lines 556-557). -/
def series_time_of (series_data : SeriesData) (name : String) : String :=
  match series_data name with
  | some info => info.time_of_day.getD "any"
  | none => "any"

/-- `get_eligible_series_for_time` (scheduler.py lines 548-562): series of the
channel whose `time_of_day` is the requested one or `"any"`. -/
def get_eligible_series_for_time (time_of_day : String) (channel_series : List String)
    (series_data : SeriesData) : List String :=
  channel_series.filter (fun n =>
    decide (series_time_of series_data n = "any" ∨
      series_time_of series_data n = time_of_day))

/-- `select_back_to_back_count` (scheduler.py lines 534-545) with the result
of `random.randint(1, total)` passed in as `roll`: cumulative thresholds of
the weight table `{2:80, 3:10, 4:5, 5:3, 6:2}` iterated in sorted key order,
with fallback 2. -/
def select_back_to_back_count (roll : ℕ) : ℕ :=
  if roll ≤ 80 then 2
  else if roll ≤ 90 then 3
  else if roll ≤ 95 then 4
  else if roll ≤ 98 then 5
  else if roll ≤ 100 then 6
  else 2

/-- The slot-filling loop of `generate_weekly_schedule` (scheduler.py lines
627-635): repeatedly pick an eligible series at random and append it
`min(back_to_back, remaining)` times. `picks step` is the index the call
`random.choice(eligible)` would select (reduced mod the list length) and
`rolls step` the die of `select_back_to_back_count`; the data-dependent
`while` is driven by fuel. -/
def fill_slots (slot_count : ℕ) (eligible : List String) (picks rolls : ℕ → ℕ) :
    ℕ → ℕ → List String → List String
  | 0, _, slots => slots
  | fuel + 1, step, slots =>
    if slots.length < slot_count then
      fill_slots slot_count eligible picks rolls fuel (step + 1)
        (slots ++ List.replicate
          (min (select_back_to_back_count (rolls step)) (slot_count - slots.length))
          (eligible.getD (picks step % eligible.length) ""))
    else slots

/-- The per-(channel, time-of-day) slot assignment of
`generate_weekly_schedule` (scheduler.py lines 617-636): when no series is
eligible the slots are filled with the `"__test_pattern__"` sentinel,
otherwise with the random back-to-back fill truncated to the slot count. -/
def weekly_time_slots (time_of_day : String) (slot_count : ℕ)
    (series_filter : List String) (series_data : SeriesData)
    (picks rolls : ℕ → ℕ) (fuel : ℕ) : List String :=
  let eligible := get_eligible_series_for_time time_of_day series_filter series_data
  if eligible = [] then List.replicate slot_count "__test_pattern__"
  else (fill_slots slot_count eligible picks rolls fuel 0 []).take slot_count

/-- Modelled from the spec (section 4.D step 2), for comparison with the
source's `get_eligible_series_for_time`: the claimed eligible set
`Eligible(T) = series of the filter whose time_of_day is T or any AND whose
episode list is non-empty`. -/
def eligibleSpec (time_of_day : String) (channel_series : List String)
    (series_data : SeriesData) (metadata : Metadata) : List String :=
  channel_series.filter (fun n =>
    decide ((series_time_of series_data n = "any" ∨
        series_time_of series_data n = time_of_day)
      ∧ get_series_episodes n metadata ≠ []))

/-- Series data for the C6 counterexample: series `B` has `time_of_day`
`"any"` but no episodes at all. -/
def sdC6 : SeriesData := fun n =>
  if n = "B" then some { time_of_day := some "any" } else none

/-- Claim C6, counterexample: the code's eligible set does not require a
non-empty episode list. Series `B` (`time_of_day = "any"`, zero episodes) is
eligible for the code although the claimed set is empty, and the weekly slots
are filled with `B` rather than with the `"__test_pattern__"` sentinel. -/
theorem claim_C6_counterexample :
    get_eligible_series_for_time "evening" ["B"] sdC6 = ["B"]
    ∧ get_series_episodes "B" ([] : Metadata) = []
    ∧ eligibleSpec "evening" ["B"] sdC6 ([] : Metadata) = []
    ∧ get_eligible_series_for_time "evening" ["B"] sdC6
        ≠ eligibleSpec "evening" ["B"] sdC6 ([] : Metadata)
    ∧ weekly_time_slots "evening" 8 ["B"] sdC6 (fun _ => 0) (fun _ => 1) 20
        ≠ List.replicate 8 "__test_pattern__" := by
  have heps : get_series_episodes "B" ([] : Metadata) = [] := by
    simp [get_series_episodes]
  refine ⟨by decide, heps, ?_, ?_, by decide⟩
  · simp [eligibleSpec, heps]
  · intro h
    rw [(by decide : get_eligible_series_for_time "evening" ["B"] sdC6 = ["B"])] at h
    rw [(by simp [eligibleSpec, heps] :
      eligibleSpec "evening" ["B"] sdC6 ([] : Metadata) = [])] at h
    exact List.cons_ne_nil _ _ h

/-- Claim C6, amended: the eligible set equals the series of the filter whose
`time_of_day` is T or `"any"` (with no episode-count condition), and when
this set is empty every slot of T is filled with the `"__test_pattern__"`
sentinel. -/
theorem claim_C6_amended (tod : String) (cs : List String) (sd : SeriesData)
    (slot_count : ℕ) (picks rolls : ℕ → ℕ) (fuel : ℕ) :
    (∀ s, s ∈ get_eligible_series_for_time tod cs sd ↔
      s ∈ cs ∧ (series_time_of sd s = "any" ∨ series_time_of sd s = tod))
    ∧ (get_eligible_series_for_time tod cs sd = [] →
        weekly_time_slots tod slot_count cs sd picks rolls fuel
          = List.replicate slot_count "__test_pattern__") := by
  constructor
  · intro s
    simp [get_eligible_series_for_time, List.mem_filter]
  · intro h
    simp [weekly_time_slots, h]

/-- Series data for the C6 witness: series `C` is a night series, hence not
eligible in the evening. -/
def sdC6n : SeriesData := fun n =>
  if n = "C" then some { time_of_day := some "night" } else none

/-- Witness for C6 amended: an evening slot map over a night-only filter is
sentinel-filled. -/
theorem claim_C6_amended_witness :
    get_eligible_series_for_time "evening" ["C"] sdC6n = [] ∧
    weekly_time_slots "evening" 8 ["C"] sdC6n (fun _ => 0) (fun _ => 1) 20
      = List.replicate 8 "__test_pattern__" :=
  ⟨by decide,
    (claim_C6_amended "evening" ["C"] sdC6n 8 (fun _ => 0) (fun _ => 1) 20).2 (by decide)⟩

/-- One element of the list returned by `build_commercial_sequence`
(scheduler.py lines 696-740): type (`commercial` or `sponsors_placeholder`),
video id and duration. -/
structure CommSeqItem where
  type : SegType
  video_id : String
  duration : ℚ
deriving DecidableEq, Repr

/-- The empty-pool branch of `build_commercial_sequence` (scheduler.py lines
702-714): `while remaining > 0`, append a placeholder of duration
`min(30, remaining)` and subtract 30. The data-dependent `while` is driven by
fuel. -/
def commSeqPlaceholderLoop : ℕ → ℚ → List CommSeqItem
  | 0, _ => []
  | fuel + 1, remaining =>
    if 0 < remaining then
      { type := .sponsors_placeholder, video_id := "__sponsors_placeholder__",
        duration := min 30 remaining }
        :: commSeqPlaceholderLoop fuel (remaining - 30)
    else []

/-- The pool branch of `build_commercial_sequence` (scheduler.py lines
716-740): walk the shuffled pool, emitting each commercial truncated to
`min(comm_duration, remaining)` while subtracting the full duration; when the
pool index runs past the end, reshuffle (`shuffle (round + 1)`) and restart at
index 0 within the same iteration, exactly as the Python loop does. -/
def commSeqPoolLoop (shuffle : ℕ → List Commercial) :
    ℕ → ℕ → ℕ → ℚ → List CommSeqItem
  | 0, _, _, _ => []
  | fuel + 1, round, pool_index, remaining =>
    if 0 < remaining then
      let round' := if pool_index < (shuffle round).length then round else round + 1
      let pool_index' := if pool_index < (shuffle round).length then pool_index else 0
      let comm := (shuffle round').getD pool_index' default
      { type := .commercial, video_id := comm.video_id,
        duration := min comm.duration remaining }
        :: commSeqPoolLoop shuffle fuel round' (pool_index' + 1)
          (remaining - comm.duration)
    else []

/-- `build_commercial_sequence` (scheduler.py lines 696-740). `shuffle r` is
the order `random.shuffle` gives the copied pool on its r-th (re)shuffle. -/
def build_commercial_sequence (fuel : ℕ) (duration_needed : ℚ)
    (commercials : List Commercial) (shuffle : ℕ → List Commercial) :
    List CommSeqItem :=
  if commercials = [] then commSeqPlaceholderLoop fuel duration_needed
  else commSeqPoolLoop shuffle fuel 0 0 duration_needed

/-- Total duration of a commercial sequence. -/
def commSeqSum (items : List CommSeqItem) : ℚ := (items.map (fun it => it.duration)).sum

lemma commSeqPlaceholderLoop_sum :
    ∀ (k fuel : ℕ) (remaining : ℚ), remaining ≤ k * 30 → k ≤ fuel →
      commSeqSum (commSeqPlaceholderLoop fuel remaining) = max remaining 0 := by
  intro k
  induction k with
  | zero =>
    intro fuel remaining hr _
    have hmax : max remaining 0 = 0 := max_eq_right (by simpa using hr)
    cases fuel with
    | zero => simp [commSeqPlaceholderLoop, commSeqSum, hmax]
    | succ f =>
      rw [commSeqPlaceholderLoop, if_neg (by simp at hr; linarith)]
      simp [commSeqSum, hmax]
  | succ m ih =>
    intro fuel remaining hr hk
    cases fuel with
    | zero => omega
    | succ f =>
      rw [commSeqPlaceholderLoop]
      by_cases hpos : 0 < remaining
      · rw [if_pos hpos]
        have hrec : commSeqSum (commSeqPlaceholderLoop f (remaining - 30))
            = max (remaining - 30) 0 := by
          apply ih
          · push_cast at hr ⊢
            linarith
          · omega
        simp only [commSeqSum, List.map_cons, List.sum_cons] at *
        rw [hrec]
        rcases le_total remaining 30 with hc | hc
        · rw [min_eq_right hc, max_eq_right (by linarith), max_eq_left (le_of_lt hpos)]
          ring
        · rw [min_eq_left hc, max_eq_left (by linarith), max_eq_left (by linarith)]
          ring
      · rw [if_neg hpos]
        simp [commSeqSum, max_eq_right (le_of_not_lt hpos)]

lemma commSeqPoolLoop_sum (shuffle : ℕ → List Commercial) (dlow : ℚ)
    (_h0 : 0 < dlow)
    (hd : ∀ r c, c ∈ shuffle r → dlow ≤ c.duration)
    (hne : ∀ r, shuffle r ≠ []) :
    ∀ (k fuel round idx : ℕ) (remaining : ℚ),
      remaining ≤ k * dlow → k ≤ fuel →
      commSeqSum (commSeqPoolLoop shuffle fuel round idx remaining) = max remaining 0 := by
  intro k
  induction k with
  | zero =>
    intro fuel round idx remaining hr _
    have hmax : max remaining 0 = 0 := max_eq_right (by simpa using hr)
    cases fuel with
    | zero => simp [commSeqPoolLoop, commSeqSum, hmax]
    | succ f =>
      rw [commSeqPoolLoop, if_neg (by simp at hr; linarith)]
      simp [commSeqSum, hmax]
  | succ m ih =>
    intro fuel round idx remaining hr hk
    cases fuel with
    | zero => omega
    | succ f =>
      rw [commSeqPoolLoop]
      by_cases hpos : 0 < remaining
      · rw [if_pos hpos]
        set round' := if idx < (shuffle round).length then round else round + 1 with hround
        set idx' := if idx < (shuffle round).length then idx else 0 with hidx
        have hmem : (shuffle round').getD idx' default ∈ shuffle round' := by
          have hlt : idx' < (shuffle round').length := by
            by_cases hc : idx < (shuffle round).length
            · simp only [hidx, hround, if_pos hc]
              exact hc
            · simp only [hidx, hround, if_neg hc]
              have := hne (round + 1)
              exact List.length_pos.2 this
          rw [List.getD_eq_getElem _ _ hlt]
          exact List.getElem_mem hlt
        have hdur : dlow ≤ ((shuffle round').getD idx' default).duration :=
          hd round' _ hmem
        have hrec : commSeqSum (commSeqPoolLoop shuffle f round' (idx' + 1)
            (remaining - ((shuffle round').getD idx' default).duration))
            = max (remaining - ((shuffle round').getD idx' default).duration) 0 := by
          apply ih
          · push_cast at hr ⊢
            linarith
          · omega
        simp only [commSeqSum, List.map_cons, List.sum_cons] at *
        rw [hrec]
        rcases le_total remaining ((shuffle round').getD idx' default).duration with hc | hc
        · rw [min_eq_right hc, max_eq_right (by linarith), max_eq_left (le_of_lt hpos)]
          ring
        · rw [min_eq_left hc, max_eq_left (by linarith), max_eq_left (by linarith)]
          ring
      · rw [if_neg hpos]
        simp [commSeqSum, max_eq_right (le_of_not_lt hpos)]

/-- With enough fuel and positive commercial durations, a commercial break of
target duration `D` is filled exactly (`max D 0` covers the `D ≤ 0` no-loop
case). -/
lemma build_commercial_sequence_sum (fuel k : ℕ) (D dlow : ℚ)
    (commercials : List Commercial) (shuffle : ℕ → List Commercial)
    (h0 : 0 < dlow) (h30 : dlow ≤ 30)
    (hd : ∀ r c, c ∈ shuffle r → dlow ≤ c.duration)
    (hne : ∀ r, shuffle r ≠ [])
    (hb : D ≤ k * dlow) (hk : k ≤ fuel) :
    commSeqSum (build_commercial_sequence fuel D commercials shuffle) = max D 0 := by
  unfold build_commercial_sequence
  by_cases hc : commercials = []
  · rw [if_pos hc]
    apply commSeqPlaceholderLoop_sum k fuel D _ hk
    calc D ≤ k * dlow := hb
      _ ≤ k * 30 := by
        apply mul_le_mul_of_nonneg_left h30
        positivity
  · rw [if_neg hc]
    exact commSeqPoolLoop_sum shuffle dlow h0 hd hne k fuel 0 0 D hb hk

lemma commSeqPlaceholderLoop_pos :
    ∀ (fuel : ℕ) (remaining : ℚ) (it : CommSeqItem),
      it ∈ commSeqPlaceholderLoop fuel remaining → 0 < it.duration := by
  intro fuel
  induction fuel with
  | zero => intro remaining it hit; simp [commSeqPlaceholderLoop] at hit
  | succ f ih =>
    intro remaining it hit
    rw [commSeqPlaceholderLoop] at hit
    by_cases hpos : 0 < remaining
    · rw [if_pos hpos] at hit
      rcases List.mem_cons.1 hit with h | h
      · rw [h]
        simp [lt_min_iff, hpos]
      · exact ih _ _ h
    · rw [if_neg hpos] at hit
      simp at hit

lemma commSeqPoolLoop_pos (shuffle : ℕ → List Commercial) (dlow : ℚ)
    (_h0 : 0 < dlow)
    (hd : ∀ r c, c ∈ shuffle r → dlow ≤ c.duration)
    (hne : ∀ r, shuffle r ≠ []) :
    ∀ (fuel round idx : ℕ) (remaining : ℚ) (it : CommSeqItem),
      it ∈ commSeqPoolLoop shuffle fuel round idx remaining → 0 < it.duration := by
  intro fuel
  induction fuel with
  | zero => intro round idx remaining it hit; simp [commSeqPoolLoop] at hit
  | succ f ih =>
    intro round idx remaining it hit
    rw [commSeqPoolLoop] at hit
    by_cases hpos : 0 < remaining
    · rw [if_pos hpos] at hit
      set round' := if idx < (shuffle round).length then round else round + 1 with hround
      set idx' := if idx < (shuffle round).length then idx else 0 with hidx
      have hmem : (shuffle round').getD idx' default ∈ shuffle round' := by
        have hlt : idx' < (shuffle round').length := by
          by_cases hc : idx < (shuffle round).length
          · simp only [hidx, hround, if_pos hc]
            exact hc
          · simp only [hidx, hround, if_neg hc]
            exact List.length_pos.2 (hne (round + 1))
        rw [List.getD_eq_getElem _ _ hlt]
        exact List.getElem_mem hlt
      rcases List.mem_cons.1 hit with h | h
      · rw [h]
        have := hd round' _ hmem
        simp only [lt_min_iff]
        constructor
        · linarith
        · exact hpos
      · exact ih _ _ _ _ h
    · rw [if_neg hpos] at hit
      simp at hit

lemma build_commercial_sequence_pos (fuel : ℕ) (D dlow : ℚ)
    (commercials : List Commercial) (shuffle : ℕ → List Commercial)
    (h0 : 0 < dlow)
    (hd : ∀ r c, c ∈ shuffle r → dlow ≤ c.duration)
    (hne : ∀ r, shuffle r ≠ []) :
    ∀ it ∈ build_commercial_sequence fuel D commercials shuffle, 0 < it.duration := by
  intro it hit
  unfold build_commercial_sequence at hit
  by_cases hc : commercials = []
  · rw [if_pos hc] at hit
    exact commSeqPlaceholderLoop_pos fuel D it hit
  · rw [if_neg hc] at hit
    exact commSeqPoolLoop_pos shuffle dlow h0 hd hne fuel 0 0 D it hit

/-- The entry-emission pattern shared by all commercial breaks of
`generate_block_schedule`: each sequence item becomes one segment entry, laid
end to end starting at `cur`, with `base_timestamp = 0`. -/
def commEntriesFrom (cur : ℚ) : List CommSeqItem → List Entry
  | [] => []
  | it :: rest =>
    { start := cur, end_ := cur + it.duration, type := it.type,
      video_id := it.video_id, series_path := none, base_timestamp := 0 }
      :: commEntriesFrom (cur + it.duration) rest

/-- `Spans a es b`: the entries `es` tile the interval from `a` to `b`
contiguously — each entry starts where the previous one (or the interval)
ends, and the last entry ends at `b`. -/
def Spans : ℚ → List Entry → ℚ → Prop
  | a, [], b => a = b
  | a, e :: es, b => e.start = a ∧ Spans e.end_ es b

lemma Spans.append {a b c : ℚ} {l l' : List Entry}
    (h1 : Spans a l b) (h2 : Spans b l' c) : Spans a (l ++ l') c := by
  induction l generalizing a with
  | nil =>
    simp only [Spans] at h1
    simpa [h1] using h2
  | cons e es ih =>
    obtain ⟨he, hrest⟩ := h1
    exact ⟨he, ih hrest⟩

lemma commEntriesFrom_spans (items : List CommSeqItem) :
    ∀ cur : ℚ, Spans cur (commEntriesFrom cur items) (cur + commSeqSum items) := by
  induction items with
  | nil => intro cur; simp [commEntriesFrom, commSeqSum, Spans]
  | cons it rest ih =>
    intro cur
    refine ⟨rfl, ?_⟩
    have := ih (cur + it.duration)
    have harith : cur + it.duration + commSeqSum rest = cur + commSeqSum (it :: rest) := by
      simp [commSeqSum]
      ring
    rwa [harith] at this

lemma commEntriesFrom_pos (items : List CommSeqItem)
    (hpos : ∀ it ∈ items, 0 < it.duration) :
    ∀ (cur : ℚ) (e : Entry), e ∈ commEntriesFrom cur items → e.start < e.end_ := by
  induction items with
  | nil => intro cur e he; simp [commEntriesFrom] at he
  | cons it rest ih =>
    intro cur e he
    rcases List.mem_cons.1 he with h | h
    · rw [h]
      have := hpos it (List.mem_cons_self it rest)
      simpa using this
    · exact ih (fun x hx => hpos x (List.mem_cons_of_mem it hx)) _ _ h

lemma Spans.chain' {a b : ℚ} {es : List Entry} (h : Spans a es b) :
    List.Chain' (fun x y => x.end_ = y.start) es := by
  induction es generalizing a with
  | nil => exact List.chain'_nil
  | cons e rest ih =>
    obtain ⟨_, hrest⟩ := h
    rw [List.chain'_cons']
    refine ⟨?_, ih hrest⟩
    intro y hy
    cases rest with
    | nil => simp at hy
    | cons r rs =>
      simp only [List.head?_cons, Option.mem_def, Option.some.injEq] at hy
      rw [← hy]
      exact hrest.1.symm

lemma Spans.start_lt_chain' {a b : ℚ} {es : List Entry} (h : Spans a es b)
    (hpos : ∀ e ∈ es, e.start < e.end_) :
    List.Chain' (fun x y => x.start < y.start) es := by
  induction es generalizing a with
  | nil => exact List.chain'_nil
  | cons e rest ih =>
    obtain ⟨_, hrest⟩ := h
    rw [List.chain'_cons']
    refine ⟨?_, ih hrest (fun x hx => hpos x (List.mem_cons_of_mem e hx))⟩
    intro y hy
    cases rest with
    | nil => simp at hy
    | cons r rs =>
      simp only [List.head?_cons, Option.mem_def, Option.some.injEq] at hy
      have h1 : e.start < e.end_ := hpos e (List.mem_cons_self _ _)
      have h2 : r.start = e.end_ := hrest.1
      rw [← hy, h2]
      exact h1

lemma Spans.endEq {a b b' : ℚ} {es : List Entry} (h : Spans a es b) (he : b = b') :
    Spans a es b' := he ▸ h

lemma Spans.durSum {b : ℚ} {es : List Entry} :
    ∀ {a : ℚ}, Spans a es b → ((es.map (fun e => e.end_ - e.start)).sum) = b - a := by
  induction es with
  | nil =>
    intro a h
    simp only [Spans] at h
    simp [h]
  | cons e rest ih =>
    intro a h
    obtain ⟨he, hrest⟩ := h
    simp only [List.map_cons, List.sum_cons]
    rw [ih hrest, he]
    ring

lemma Spans.getLast_end {b : ℚ} {es : List Entry} :
    ∀ {a : ℚ}, Spans a es b → es ≠ [] →
      ((es.getLast?.map (fun e => e.end_)).getD 0) = b := by
  induction es with
  | nil => intro a _ hne; exact absurd rfl hne
  | cons e rest ih =>
    intro a h _
    obtain ⟨_, hrest⟩ := h
    cases rest with
    | nil =>
      simp only [Spans] at hrest
      simp [hrest]
    | cons r rs =>
      rw [List.getLast?_cons_cons]
      exact ih hrest (List.cons_ne_nil _ _)

/-- The multi-episode branch of `generate_block_schedule` (scheduler.py lines
864-893): before each episode a commercial break of one third of the block's
commercial budget (when positive), then the episode in full; `i` counts the
episodes to select each break's shuffle family. -/
def multiEpisodeEntries (commercials : List Commercial)
    (shuffles : ℕ → ℕ → List Commercial) (fuel : ℕ) (D : ℚ) :
    ℚ → ℕ → List Episode → List Entry
  | _, _, [] => []
  | cur, i, ep :: rest =>
    let seq := if 0 < D then
        build_commercial_sequence fuel D commercials (shuffles i)
      else []
    let cur1 := cur + commSeqSum seq
    commEntriesFrom cur seq
      ++ { start := cur1, end_ := cur1 + ep.duration, type := SegType.episode,
           video_id := ep.video_id, series_path := ep.series_path,
           base_timestamp := 0 }
      :: multiEpisodeEntries commercials shuffles fuel D (cur1 + ep.duration) (i + 1) rest

/-- The single-episode branch of `generate_block_schedule` (scheduler.py
lines 798-862): opening break, first episode half (`base_timestamp = 0`),
middle break, second half (`base_timestamp = half_ep`), and a closing break
sized to reach the end of the block (only when positive). -/
def singleEpisodeEntries (block_start : ℚ) (ep : Episode)
    (commercials : List Commercial) (shuffles : ℕ → ℕ → List Commercial)
    (fuel : ℕ) (block_duration D : ℚ) : List Entry :=
  let half_ep := ep.duration / 2
  let seq1 := build_commercial_sequence fuel D commercials (shuffles 0)
  let c1 := block_start + commSeqSum seq1
  let seq2 := build_commercial_sequence fuel D commercials (shuffles 1)
  let c2 := c1 + half_ep + commSeqSum seq2
  let c3 := c2 + half_ep
  let remaining_time := block_start + block_duration - c3
  let seq3 := if 0 < remaining_time then
      build_commercial_sequence fuel remaining_time commercials (shuffles 2)
    else []
  commEntriesFrom block_start seq1
    ++ { start := c1, end_ := c1 + half_ep, type := SegType.episode,
         video_id := ep.video_id, series_path := ep.series_path,
         base_timestamp := 0 }
    :: (commEntriesFrom (c1 + half_ep) seq2
      ++ { start := c2, end_ := c2 + half_ep, type := SegType.episode,
           video_id := ep.video_id, series_path := ep.series_path,
           base_timestamp := half_ep }
      :: commEntriesFrom c3 seq3)

/-- `generate_block_schedule` (scheduler.py lines 769-894): the commercial
budget is the block duration minus the total episode time (clamped at 0),
split into three equal breaks; a single episode is split around the middle
break, several episodes are laid out break-then-episode. `shuffles k` is the
pool-order family for the k-th `build_commercial_sequence` call of the
block. -/
def generate_block_schedule (block_start : ℚ) (episodes : List Episode)
    (commercials : List Commercial) (shuffles : ℕ → ℕ → List Commercial)
    (fuel : ℕ) (block_duration : ℚ := 1800) : List Entry :=
  let total_episode_time := (episodes.map (fun e => e.duration)).sum
  let total_commercial_time := max 0 (block_duration - total_episode_time)
  let commercial_break_duration := total_commercial_time / 3
  match episodes with
  | [ep] =>
    singleEpisodeEntries block_start ep commercials shuffles fuel block_duration
      commercial_break_duration
  | eps =>
    multiEpisodeEntries commercials shuffles fuel commercial_break_duration
      block_start 0 eps

lemma singleEpisodeEntries_spans (bs : ℚ) (ep : Episode)
    (commercials : List Commercial) (shuffles : ℕ → ℕ → List Commercial)
    (fuel k : ℕ) (dlow D : ℚ)
    (h0 : 0 < dlow) (h30 : dlow ≤ 30)
    (hd : ∀ j r c, c ∈ shuffles j r → dlow ≤ c.duration)
    (hne : ∀ j r, shuffles j r ≠ [])
    (hk : 1800 ≤ (k : ℚ) * dlow) (hkf : k ≤ fuel)
    (hD0 : 0 ≤ D) (hd0 : 0 ≤ ep.duration) (hsum : 2 * D + ep.duration ≤ 1800) :
    Spans bs (singleEpisodeEntries bs ep commercials shuffles fuel 1800 D) (bs + 1800)
    ∧ (0 < ep.duration →
        ∀ e ∈ singleEpisodeEntries bs ep commercials shuffles fuel 1800 D,
          e.start < e.end_) := by
  have hbound : ∀ D' : ℚ, 0 ≤ D' → D' ≤ 1800 →
      commSeqSum (build_commercial_sequence fuel D' commercials (shuffles 0)) = D' ∧
      commSeqSum (build_commercial_sequence fuel D' commercials (shuffles 1)) = D' ∧
      commSeqSum (build_commercial_sequence fuel D' commercials (shuffles 2)) = D' := by
    intro D' h1 h2
    refine ⟨?_, ?_, ?_⟩ <;>
      rw [build_commercial_sequence_sum fuel k D' dlow commercials _ h0 h30
        (hd _) (hne _) (by linarith) hkf, max_eq_left h1]
  have hDle : D ≤ 1800 := by linarith
  obtain ⟨hs1, hs2, _⟩ := hbound D hD0 hDle
  unfold singleEpisodeEntries
  set seq1 := build_commercial_sequence fuel D commercials (shuffles 0) with hseq1
  set seq2 := build_commercial_sequence fuel D commercials (shuffles 1) with hseq2
  set half : ℚ := ep.duration / 2 with hhalf
  set c1 : ℚ := bs + commSeqSum seq1 with hc1
  set c2 : ℚ := c1 + half + commSeqSum seq2 with hc2
  set c3 : ℚ := c2 + half with hc3
  set remaining : ℚ := bs + 1800 - c3 with hremaining
  have hremval : remaining = 1800 - 2 * D - ep.duration := by
    rw [hremaining, hc3, hc2, hc1, hs1, hs2, hhalf]
    ring
  have hrem0 : 0 ≤ remaining := by rw [hremval]; linarith
  set seq3 := (if 0 < remaining then
      build_commercial_sequence fuel remaining commercials (shuffles 2)
    else []) with hseq3
  have hs3 : commSeqSum seq3 = remaining := by
    rw [hseq3]
    by_cases hr : 0 < remaining
    · rw [if_pos hr]
      rw [build_commercial_sequence_sum fuel k remaining dlow commercials _ h0 h30
        (hd _) (hne _) (by rw [hremval]; linarith) hkf, max_eq_left hrem0]
    · rw [if_neg hr]
      have : remaining = 0 := le_antisymm (le_of_not_lt hr) hrem0
      simp [commSeqSum, this]
  constructor
  · have hA : Spans bs (commEntriesFrom bs seq1) c1 := by
      rw [hc1]
      exact commEntriesFrom_spans seq1 bs
    refine hA.append ⟨rfl, ?_⟩
    have hB : Spans (c1 + half) (commEntriesFrom (c1 + half) seq2) c2 := by
      rw [hc2]
      exact commEntriesFrom_spans seq2 (c1 + half)
    refine hB.append ⟨rfl, ?_⟩
    have hC : Spans c3 (commEntriesFrom c3 seq3) (c3 + commSeqSum seq3) :=
      commEntriesFrom_spans seq3 c3
    exact hC.endEq (by rw [hs3, hremaining]; ring)
  · intro hpos e he
    have hhalfpos : 0 < half := by rw [hhalf]; linarith
    have hposA : ∀ e' ∈ commEntriesFrom bs seq1, e'.start < e'.end_ :=
      commEntriesFrom_pos seq1
        (build_commercial_sequence_pos fuel D dlow commercials _ h0 (hd _) (hne _)) bs
    have hposB : ∀ e' ∈ commEntriesFrom (c1 + half) seq2, e'.start < e'.end_ :=
      commEntriesFrom_pos seq2
        (build_commercial_sequence_pos fuel D dlow commercials _ h0 (hd _) (hne _))
        (c1 + half)
    have hposC : ∀ e' ∈ commEntriesFrom c3 seq3, e'.start < e'.end_ := by
      apply commEntriesFrom_pos seq3
      intro it hit
      rw [hseq3] at hit
      by_cases hr : 0 < remaining
      · rw [if_pos hr] at hit
        exact build_commercial_sequence_pos fuel remaining dlow commercials _ h0
          (hd _) (hne _) it hit
      · rw [if_neg hr] at hit
        simp at hit
    rcases List.mem_append.1 he with h | h
    · exact hposA e h
    · rcases List.mem_cons.1 h with h' | h'
      · rw [h']
        simpa using hhalfpos
      · rcases List.mem_append.1 h' with h'' | h''
        · exact hposB e h''
        · rcases List.mem_cons.1 h'' with h3 | h3
          · rw [h3]
            simpa using hhalfpos
          · exact hposC e h3

lemma multiEpisodeEntries_spans (commercials : List Commercial)
    (shuffles : ℕ → ℕ → List Commercial) (fuel k : ℕ) (dlow D : ℚ)
    (h0 : 0 < dlow) (h30 : dlow ≤ 30)
    (hd : ∀ j r c, c ∈ shuffles j r → dlow ≤ c.duration)
    (hne : ∀ j r, shuffles j r ≠ [])
    (hk : 1800 ≤ (k : ℚ) * dlow) (hkf : k ≤ fuel)
    (hD0 : 0 ≤ D) (hD1800 : D ≤ 1800) :
    ∀ (eps : List Episode) (cur : ℚ) (i : ℕ),
      Spans cur (multiEpisodeEntries commercials shuffles fuel D cur i eps)
        (cur + (((eps.map (fun e => e.duration)).sum) + (eps.length : ℚ) * D)) := by
  intro eps
  induction eps with
  | nil =>
    intro cur i
    show cur = cur + _
    simp
  | cons ep rest ih =>
    intro cur i
    unfold multiEpisodeEntries
    set seq := (if 0 < D then
        build_commercial_sequence fuel D commercials (shuffles i)
      else []) with hseq
    have hs : commSeqSum seq = D := by
      rw [hseq]
      by_cases hr : 0 < D
      · rw [if_pos hr]
        rw [build_commercial_sequence_sum fuel k D dlow commercials _ h0 h30
          (hd _) (hne _) (by linarith) hkf, max_eq_left hD0]
      · rw [if_neg hr]
        have : D = 0 := le_antisymm (le_of_not_lt hr) hD0
        simp [commSeqSum, this]
    have hA : Spans cur (commEntriesFrom cur seq) (cur + commSeqSum seq) :=
      commEntriesFrom_spans seq cur
    refine hA.append ⟨rfl, ?_⟩
    have hrec := ih (cur + commSeqSum seq + ep.duration) (i + 1)
    refine hrec.endEq ?_
    rw [hs]
    simp only [List.map_cons, List.sum_cons, List.length_cons]
    push_cast
    ring

lemma generate_block_schedule_one (bs : ℚ) (ep : Episode)
    (commercials : List Commercial) (shuffles : ℕ → ℕ → List Commercial)
    (fuel : ℕ) :
    generate_block_schedule bs [ep] commercials shuffles fuel
      = singleEpisodeEntries bs ep commercials shuffles fuel 1800
          (max 0 (1800 - ep.duration) / 3) := by
  simp [generate_block_schedule]

lemma generate_block_schedule_ne_one (bs : ℚ) (eps : List Episode)
    (commercials : List Commercial) (shuffles : ℕ → ℕ → List Commercial)
    (fuel : ℕ) (h : eps.length ≠ 1) :
    generate_block_schedule bs eps commercials shuffles fuel
      = multiEpisodeEntries commercials shuffles fuel
          (max 0 (1800 - ((eps.map (fun e => e.duration)).sum)) / 3) bs 0 eps := by
  cases eps with
  | nil => simp [generate_block_schedule]
  | cons e tail =>
    cases tail with
    | nil => simp at h
    | cons e2 t2 => simp [generate_block_schedule]

lemma generate_block_schedule_single_spans (bs : ℚ) (ep : Episode)
    (commercials : List Commercial) (shuffles : ℕ → ℕ → List Commercial)
    (fuel k : ℕ) (dlow : ℚ)
    (h0 : 0 < dlow) (h30 : dlow ≤ 30)
    (hd : ∀ j r c, c ∈ shuffles j r → dlow ≤ c.duration)
    (hne : ∀ j r, shuffles j r ≠ [])
    (hk : 1800 ≤ (k : ℚ) * dlow) (hkf : k ≤ fuel)
    (hd0 : 0 ≤ ep.duration) (hd1800 : ep.duration ≤ 1800) :
    Spans bs (generate_block_schedule bs [ep] commercials shuffles fuel) (bs + 1800)
    ∧ (0 < ep.duration →
        ∀ e ∈ generate_block_schedule bs [ep] commercials shuffles fuel,
          e.start < e.end_) := by
  rw [generate_block_schedule_one]
  have hDval : max 0 (1800 - ep.duration) / 3 = (1800 - ep.duration) / 3 := by
    rw [max_eq_right (by linarith)]
  exact singleEpisodeEntries_spans bs ep commercials shuffles fuel k dlow _
    h0 h30 hd hne hk hkf
    (by rw [hDval]; linarith) hd0 (by rw [hDval]; linarith)

/-- Total covered duration of an entry list. -/
def entriesDurSum (es : List Entry) : ℚ := (es.map (fun e => e.end_ - e.start)).sum

/-- Claim C2, amended: the segment durations of a 30-minute block sum to
exactly 1800 s when the block is built from one episode (of at most 1800 s);
a block built from `n ≠ 1` episodes sums to
`total + n * max(0, 1800 - total)/3`, which equals 1800 only when the
commercial budget is zero or `n = 3` — a two-episode (short) block leaves one
third of its commercial budget unscheduled. -/
theorem claim_C2_amended (bs : ℚ) (episodes : List Episode)
    (commercials : List Commercial) (shuffles : ℕ → ℕ → List Commercial)
    (fuel k : ℕ) (dlow : ℚ)
    (h0 : 0 < dlow) (h30 : dlow ≤ 30)
    (hd : ∀ j r c, c ∈ shuffles j r → dlow ≤ c.duration)
    (hne : ∀ j r, shuffles j r ≠ [])
    (hk : 1800 ≤ (k : ℚ) * dlow) (hkf : k ≤ fuel) :
    (∀ ep, episodes = [ep] → 0 ≤ ep.duration → ep.duration ≤ 1800 →
      entriesDurSum (generate_block_schedule bs episodes commercials shuffles fuel)
        = 1800)
    ∧ (episodes.length ≠ 1 → 0 ≤ (episodes.map (fun e => e.duration)).sum →
      entriesDurSum (generate_block_schedule bs episodes commercials shuffles fuel)
        = (episodes.map (fun e => e.duration)).sum
          + (episodes.length : ℚ)
            * (max 0 (1800 - (episodes.map (fun e => e.duration)).sum) / 3)) := by
  constructor
  · intro ep hep hd0 hd1800
    subst hep
    have hspans := (generate_block_schedule_single_spans bs ep commercials shuffles
      fuel k dlow h0 h30 hd hne hk hkf hd0 hd1800).1
    rw [entriesDurSum, hspans.durSum]
    ring
  · intro hlen htot
    rw [generate_block_schedule_ne_one bs episodes commercials shuffles fuel hlen]
    have hD0 : 0 ≤ max 0 (1800 - ((episodes.map (fun e => e.duration)).sum)) / 3 := by
      have := le_max_left 0 (1800 - ((episodes.map (fun e => e.duration)).sum))
      linarith
    have hD1800 : max 0 (1800 - ((episodes.map (fun e => e.duration)).sum)) / 3 ≤ 1800 := by
      have : max 0 (1800 - ((episodes.map (fun e => e.duration)).sum)) ≤ 1800 :=
        max_le (by norm_num) (by linarith)
      linarith
    have hspans := multiEpisodeEntries_spans commercials shuffles fuel k dlow _
      h0 h30 hd hne hk hkf hD0 hD1800 episodes bs 0
    rw [entriesDurSum, hspans.durSum]
    ring

/-- The concrete single 20-minute episode used by the C2 witness. -/
def epW : Episode :=
  { video_id := "w1", season := 1, episode := 1, duration := 1200,
    series_path := some "Series_W/w1" }

/-- The one-commercial pool used by the C2 witness. -/
def commsW : List Commercial := [{ video_id := "cw", duration := 30 }]

/-- Witness for C2 amended: one 1200 s episode fills its block to exactly
1800 s. -/
theorem claim_C2_amended_witness :
    (0 : ℚ) ≤ epW.duration ∧ epW.duration ≤ 1800 ∧
    entriesDurSum (generate_block_schedule 3600 [epW] commsW
      (fun _ _ => commsW) 60 ) = 1800 := by
  refine ⟨by norm_num [epW], by norm_num [epW], ?_⟩
  exact (claim_C2_amended 3600 [epW] commsW (fun _ _ => commsW) 60 60 30
    (by norm_num) (by norm_num)
    (fun j r c hc => by
      rw [commsW, List.mem_singleton] at hc
      rw [hc])
    (fun j r => by simp [commsW])
    (by norm_num) (le_refl 60)).1 epW rfl (by norm_num [epW]) (by norm_num [epW])

/-- `get_time_of_day_for_hour` (scheduler.py lines 654-668). -/
def get_time_of_day_for_hour (hour : ℕ) : String :=
  if 21 ≤ hour ∨ hour < 3 then "night"
  else if 4 ≤ hour ∧ hour < 7 then "early_morning"
  else if 7 ≤ hour ∧ hour < 12 then "late_morning"
  else if 12 ≤ hour ∧ hour < 17 then "afternoon"
  else if 17 ≤ hour ∧ hour < 21 then "evening"
  else "night"

/-- First component of `TIME_OF_DAY_RANGES.get(time_of_day, (4, 7))`
(scheduler.py lines 57-63 and 679): the period's start hour. -/
def time_of_day_range_start (time_of_day : String) : ℕ :=
  if time_of_day = "early_morning" then 4
  else if time_of_day = "late_morning" then 7
  else if time_of_day = "afternoon" then 12
  else if time_of_day = "evening" then 17
  else if time_of_day = "night" then 21
  else 4

/-- `get_slot_index_for_time` (scheduler.py lines 671-693): the time-of-day
period of an instant and its half-hour slot index within that period, with
the night period wrapping through midnight. -/
def get_slot_index_for_time (hour minute : ℕ) : String × ℕ :=
  let time_of_day := get_time_of_day_for_hour hour
  let hours_into_period :=
    if time_of_day = "night" then
      (if 21 ≤ hour then hour - 21 else hour + 24 - 21)
    else hour - time_of_day_range_start time_of_day
  (time_of_day, hours_into_period * 2 + (if 30 ≤ minute then 1 else 0))

/-- Result of `calculate_block_structure`; for the `skip` shape the Python
dict omits `episodes_per_block` and the daily generator reads it back with
`.get("episodes_per_block", 1)`, which is inlined here as 1. -/
structure BlockStructure where
  type : String
  episodes_per_block : ℕ
  blocks : ℕ
deriving DecidableEq, Repr

/-- `calculate_block_structure` (scheduler.py lines 743-766); the `very_long`
block count is `int((duration + block_duration - 1) // block_duration)`. -/
def calculate_block_structure (episode_duration : ℚ)
    (block_duration : ℚ := 1800) : BlockStructure :=
  if episode_duration ≤ 0 then
    { type := "skip", episodes_per_block := 1, blocks := 0 }
  else if episode_duration < 600 then
    { type := "very_short", episodes_per_block := 3, blocks := 1 }
  else if episode_duration < 900 then
    { type := "short", episodes_per_block := 2, blocks := 1 }
  else if episode_duration < 1680 then
    { type := "medium", episodes_per_block := 1, blocks := 1 }
  else if episode_duration < 3480 then
    { type := "long", episodes_per_block := 1, blocks := 2 }
  else
    { type := "very_long", episodes_per_block := 1,
      blocks := (((episode_duration + block_duration - 1) / block_duration).floor).toNat }

/-- The episode-collection loop of `generate_daily_schedule` (scheduler.py
lines 1031-1038): advance the cursor `episodes_needed` times, keeping the
episodes that come back. -/
def collect_episodes (cid series_name : String) (metadata : Metadata) :
    ℕ → Cursors → List Episode × Cursors
  | 0, cursors => ([], cursors)
  | n + 1, cursors =>
    let step := get_next_episode_for_channel cid series_name cursors metadata
    let rest := collect_episodes cid series_name metadata n step.2
    (match step.1 with
     | some e => e :: rest.1
     | none => rest.1,
     rest.2)

/-- A test-pattern segment covering `[a, b)`. -/
def testEntry (a b : ℚ) : Entry :=
  { start := a, end_ := b, type := .test_pattern, video_id := "__test_pattern__",
    series_path := none, base_timestamp := 0 }

/-- The multi-block branch of `generate_daily_schedule` (scheduler.py lines
1049-1089): for each spanned block, lay out a single-episode block for a
synthetic episode of duration `total / blocks` and then overwrite the episode
entries' `base_timestamp` with `span_block * time_per_block`. (The Python code
also computes an unused per-break commercial duration and passes an ignored
`_base_offset` field in the synthetic episode dict.) -/
def spanBlockEntries (block_start : ℚ) (ep : Episode) (blocks_to_span : ℕ)
    (total_duration : ℚ) (commercials : List Commercial)
    (shuffles : ℕ → ℕ → List Commercial) (fuel : ℕ) : List Entry :=
  let time_per_block := total_duration / (blocks_to_span : ℚ)
  (List.range blocks_to_span).flatMap (fun span_block =>
    let span_start := block_start + (span_block : ℚ) * 1800
    let block_entries := generate_block_schedule span_start
      [{ video_id := ep.video_id, season := ep.season, episode := ep.episode,
         duration := time_per_block, series_path := ep.series_path }]
      commercials (fun j => shuffles (span_block * 3 + j)) fuel
    block_entries.map (fun e =>
      if e.type = SegType.episode then
        { e with base_timestamp := (span_block : ℚ) * time_per_block }
      else e))

/-- The channel state threaded through the 46-block loop of
`generate_daily_schedule`: accumulated entries and the cursor store. -/
structure DayState where
  entries : List Entry
  cursors : Cursors

/-- One iteration of the 46-block loop of `generate_daily_schedule`
(scheduler.py lines 987-1098) for a fixed channel: locate the weekly slot for
the block's wall-clock time, emit a test-pattern block for the sentinel or an
episodeless series, otherwise peek to choose the block structure, advance the
cursor to collect the block's episodes and lay the block (or span) out.
`shuffles block_num k` is the pool order family of the k-th
`build_commercial_sequence` call inside block `block_num`. -/
def processBlock (cid : String) (metadata : Metadata)
    (time_slots : String → List String) (commercials : List Commercial)
    (shuffles : ℕ → ℕ → ℕ → List Commercial) (fuel : ℕ)
    (block_num : ℕ) (st : DayState) : DayState :=
  let block_start_second : ℕ := 3600 + block_num * 1800
  let total_seconds_from_midnight : ℕ := 3 * 3600 + block_start_second
  let block_hour : ℕ := (total_seconds_from_midnight / 3600) % 24
  let block_minute : ℕ := (total_seconds_from_midnight % 3600) / 60
  let tod_slot := get_slot_index_for_time block_hour block_minute
  let slots_for_period := time_slots tod_slot.1
  let series_name := slots_for_period.getD tod_slot.2 "__test_pattern__"
  if series_name = "__test_pattern__" then
    { st with entries := st.entries ++
        [testEntry (block_start_second : ℚ) ((block_start_second : ℚ) + 1800)] }
  else
    match peek_next_episode_for_channel cid series_name 0 st.cursors metadata with
    | none =>
      { st with entries := st.entries ++
          [testEntry (block_start_second : ℚ) ((block_start_second : ℚ) + 1800)] }
    | some next_ep =>
      let block_structure := calculate_block_structure next_ep.duration
      let collected := collect_episodes cid series_name metadata
        block_structure.episodes_per_block st.cursors
      if collected.1 = [] then
        { entries := st.entries ++
            [testEntry (block_start_second : ℚ) ((block_start_second : ℚ) + 1800)],
          cursors := collected.2 }
      else if 1 < block_structure.blocks then
        { entries := st.entries ++ spanBlockEntries (block_start_second : ℚ)
            (collected.1.headD default) block_structure.blocks
            (collected.1.headD default).duration
            commercials (shuffles block_num) fuel,
          cursors := collected.2 }
      else
        { entries := st.entries ++ generate_block_schedule (block_start_second : ℚ)
            collected.1 commercials (shuffles block_num) fuel,
          cursors := collected.2 }

/-- The per-channel body of `generate_daily_schedule` (scheduler.py lines
957-1100): the `[0, 3600)` test-pattern segment followed by the 46 half-hour
blocks from 04:00 to 03:00, threading the episode cursors (which the caller
persists together with the plan). -/
def generate_daily_channel_entries (cid : String) (metadata : Metadata)
    (time_slots : String → List String) (cursors : Cursors)
    (shuffles : ℕ → ℕ → ℕ → List Commercial) (fuel : ℕ) : List Entry × Cursors :=
  let commercials := get_commercials metadata
  let st := (List.range 46).foldl
    (fun s block_num =>
      processBlock cid metadata time_slots commercials shuffles fuel block_num s)
    { entries := [testEntry 0 3600], cursors := cursors }
  (st.entries, st.cursors)

/-- The daily-schedule invariant claimed for a channel's entry list: the
first segment is the `[0, 3600)` test pattern, segments are contiguous
(end-exclusive, each end equal to the next start), starts strictly increase
(sorted), and coverage from second 0 reaches at least 23 h (82800 s). -/
def dailyInvariantHolds (es : List Entry) : Prop :=
  es.head? = some (testEntry 0 3600)
  ∧ List.Chain' (fun a b => a.end_ = b.start) es
  ∧ List.Chain' (fun a b => a.start < b.start) es
  ∧ (82800 : ℚ) ≤ ((es.getLast?.map (fun e => e.end_)).getD 0)

lemma getD_emod_mem (l : List Episode) (h : l ≠ []) (i : Int) :
    l.getD ((i % (l.length : Int)).toNat) default ∈ l := by
  have hN : 0 < l.length := List.length_pos.2 h
  have h1 : 0 ≤ i % (l.length : Int) := Int.emod_nonneg i (by omega)
  have h2 : i % (l.length : Int) < (l.length : Int) := Int.emod_lt_of_pos i (by omega)
  have hlt : (i % (l.length : Int)).toNat < l.length := by omega
  rw [List.getD_eq_getElem _ _ hlt]
  exact List.getElem_mem hlt

lemma peek_some_ne_nil {cid s : String} {off : Int} {cursors : Cursors}
    {metadata : Metadata} {e : Episode}
    (h : peek_next_episode_for_channel cid s off cursors metadata = some e) :
    get_series_episodes s metadata ≠ [] := by
  intro hnil
  rw [peek_next_episode_for_channel, if_pos hnil] at h
  exact Option.noConfusion h

lemma peek_some_mem {cid s : String} {off : Int} {cursors : Cursors}
    {metadata : Metadata} {e : Episode}
    (h : peek_next_episode_for_channel cid s off cursors metadata = some e) :
    e ∈ get_series_episodes s metadata := by
  have hne := peek_some_ne_nil h
  rw [peek_next_episode_for_channel, if_neg hne] at h
  obtain rfl := (Option.some.injEq _ _).mp h |>.symm
  exact getD_emod_mem _ hne _

lemma collect_one {cid s : String} {metadata : Metadata} (cursors : Cursors)
    (hne : get_series_episodes s metadata ≠ []) :
    ∃ e curs', collect_episodes cid s metadata 1 cursors = ([e], curs')
      ∧ e ∈ get_series_episodes s metadata := by
  refine ⟨(get_series_episodes s metadata).getD
      ((cursorLastIndex (cursors cid s) + 1) %
        ((get_series_episodes s metadata).length : Int)).toNat default,
    (get_next_episode_for_channel cid s cursors metadata).2, ?_, ?_⟩
  · show collect_episodes cid s metadata 1 cursors = _
    unfold collect_episodes collect_episodes
    simp [get_next_episode_for_channel, hne]
  · exact getD_emod_mem _ hne _

lemma calculate_block_structure_medium {d : ℚ} (h9 : 900 ≤ d) (h16 : d < 1680) :
    calculate_block_structure d
      = { type := "medium", episodes_per_block := 1, blocks := 1 } := by
  unfold calculate_block_structure
  rw [if_neg (by linarith), if_neg (by linarith), if_neg (by linarith), if_pos h16]

lemma processBlock_spans (cid : String) (metadata : Metadata)
    (time_slots : String → List String) (commercials : List Commercial)
    (shuffles : ℕ → ℕ → ℕ → List Commercial) (fuel k : ℕ) (dlow : ℚ)
    (hmed : ∀ s e, e ∈ get_series_episodes s metadata →
      900 ≤ e.duration ∧ e.duration < 1680)
    (h0 : 0 < dlow) (h30 : dlow ≤ 30)
    (hd : ∀ b j r c, c ∈ shuffles b j r → dlow ≤ c.duration)
    (hne : ∀ b j r, shuffles b j r ≠ [])
    (hk : 1800 ≤ (k : ℚ) * dlow) (hkf : k ≤ fuel)
    (block_num : ℕ) (st : DayState) :
    ∃ es', (processBlock cid metadata time_slots commercials shuffles fuel
        block_num st).entries = st.entries ++ es'
      ∧ Spans ((3600 + block_num * 1800 : ℕ) : ℚ) es'
          (((3600 + block_num * 1800 : ℕ) : ℚ) + 1800)
      ∧ ∀ e ∈ es', e.start < e.end_ := by
  have htest : Spans ((3600 + block_num * 1800 : ℕ) : ℚ)
      [testEntry ((3600 + block_num * 1800 : ℕ) : ℚ)
        (((3600 + block_num * 1800 : ℕ) : ℚ) + 1800)]
      (((3600 + block_num * 1800 : ℕ) : ℚ) + 1800) := ⟨rfl, rfl⟩
  have htpos : ∀ e ∈ [testEntry ((3600 + block_num * 1800 : ℕ) : ℚ)
      (((3600 + block_num * 1800 : ℕ) : ℚ) + 1800)], e.start < e.end_ := by
    intro e he
    rw [List.mem_singleton] at he
    rw [he]
    show ((3600 + block_num * 1800 : ℕ) : ℚ) < ((3600 + block_num * 1800 : ℕ) : ℚ) + 1800
    linarith
  unfold processBlock
  by_cases hsent : (time_slots (get_slot_index_for_time
      (((3 * 3600 + (3600 + block_num * 1800)) / 3600) % 24)
      ((3 * 3600 + (3600 + block_num * 1800)) % 3600 / 60)).1).getD
      (get_slot_index_for_time
        (((3 * 3600 + (3600 + block_num * 1800)) / 3600) % 24)
        ((3 * 3600 + (3600 + block_num * 1800)) % 3600 / 60)).2 "__test_pattern__"
      = "__test_pattern__"
  · rw [if_pos hsent]
    exact ⟨_, rfl, htest, htpos⟩
  · rw [if_neg hsent]
    set series_name := (time_slots (get_slot_index_for_time
        (((3 * 3600 + (3600 + block_num * 1800)) / 3600) % 24)
        ((3 * 3600 + (3600 + block_num * 1800)) % 3600 / 60)).1).getD
        (get_slot_index_for_time
          (((3 * 3600 + (3600 + block_num * 1800)) / 3600) % 24)
          ((3 * 3600 + (3600 + block_num * 1800)) % 3600 / 60)).2 "__test_pattern__"
      with hseries
    cases hp : peek_next_episode_for_channel cid series_name 0 st.cursors metadata with
    | none => exact ⟨_, rfl, htest, htpos⟩
    | some next_ep =>
      have hepsne := peek_some_ne_nil hp
      have hbounds := hmed series_name next_ep (peek_some_mem hp)
      dsimp only
      rw [calculate_block_structure_medium hbounds.1 hbounds.2]
      obtain ⟨e1, curs', hcollect, he1mem⟩ := collect_one st.cursors hepsne
      rw [hcollect]
      have hb1 := hmed series_name e1 he1mem
      rw [if_neg (by simp)]
      rw [if_neg (by norm_num)]
      refine ⟨_, rfl, ?_, ?_⟩
      · exact (generate_block_schedule_single_spans _ e1 commercials
          (shuffles block_num) fuel k dlow h0 h30 (hd block_num) (hne block_num)
          hk hkf (by linarith [hb1.1]) (by linarith [hb1.2])).1
      · exact (generate_block_schedule_single_spans _ e1 commercials
          (shuffles block_num) fuel k dlow h0 h30 (hd block_num) (hne block_num)
          hk hkf (by linarith [hb1.1]) (by linarith [hb1.2])).2
          (by linarith [hb1.1])

lemma foldl_processBlock_inv (cid : String) (metadata : Metadata)
    (time_slots : String → List String) (commercials : List Commercial)
    (shuffles : ℕ → ℕ → ℕ → List Commercial) (fuel k : ℕ) (dlow : ℚ)
    (hmed : ∀ s e, e ∈ get_series_episodes s metadata →
      900 ≤ e.duration ∧ e.duration < 1680)
    (h0 : 0 < dlow) (h30 : dlow ≤ 30)
    (hd : ∀ b j r c, c ∈ shuffles b j r → dlow ≤ c.duration)
    (hne : ∀ b j r, shuffles b j r ≠ [])
    (hk : 1800 ≤ (k : ℚ) * dlow) (hkf : k ≤ fuel) :
    ∀ (n k0 : ℕ) (st : DayState),
      (∃ rest, st.entries = testEntry 0 3600 :: rest) →
      Spans 0 st.entries ((3600 + k0 * 1800 : ℕ) : ℚ) →
      (∀ e ∈ st.entries, e.start < e.end_) →
      (∃ rest, ((List.range' k0 n).foldl
          (fun s b => processBlock cid metadata time_slots commercials shuffles fuel b s)
          st).entries = testEntry 0 3600 :: rest)
      ∧ Spans 0 ((List.range' k0 n).foldl
          (fun s b => processBlock cid metadata time_slots commercials shuffles fuel b s)
          st).entries ((3600 + (k0 + n) * 1800 : ℕ) : ℚ)
      ∧ (∀ e ∈ ((List.range' k0 n).foldl
          (fun s b => processBlock cid metadata time_slots commercials shuffles fuel b s)
          st).entries, e.start < e.end_) := by
  intro n
  induction n with
  | zero =>
    intro k0 st hhead hspans hpos
    exact ⟨hhead, hspans, hpos⟩
  | succ m ih =>
    intro k0 st hhead hspans hpos
    rw [List.range'_succ, List.foldl_cons]
    obtain ⟨es', hes', hspans', hpos'⟩ := processBlock_spans cid metadata time_slots
      commercials shuffles fuel k dlow hmed h0 h30 hd hne hk hkf k0 st
    obtain ⟨rest, hrest⟩ := hhead
    have hnext : ∃ r2,
        (processBlock cid metadata time_slots commercials shuffles fuel k0 st).entries
          = testEntry 0 3600 :: r2 := by
      rw [hes', hrest]
      exact ⟨rest ++ es', by simp⟩
    have hspans2 : Spans 0
        (processBlock cid metadata time_slots commercials shuffles fuel k0 st).entries
        ((3600 + (k0 + 1) * 1800 : ℕ) : ℚ) := by
      rw [hes']
      refine (hspans.append hspans').endEq ?_
      push_cast
      ring
    have hpos2 : ∀ e ∈ (processBlock cid metadata time_slots commercials shuffles
        fuel k0 st).entries, e.start < e.end_ := by
      rw [hes']
      intro e he
      rcases List.mem_append.1 he with h | h
      · exact hpos e h
      · exact hpos' e h
    have hfin := ih (k0 + 1)
      (processBlock cid metadata time_slots commercials shuffles fuel k0 st)
      hnext hspans2 hpos2
    have harith : k0 + 1 + m = k0 + (m + 1) := by omega
    rw [harith] at hfin
    exact hfin

/-- Claim C1, amended: the first segment is always the `[0, 3600)` test
pattern; moreover, when every episode of every series in the metadata has a
duration in the medium range `[900 s, 1680 s)` (so no block takes the
two-episode short structure and no episode spans several blocks), the
channel's generated segment list is sorted by start, contiguous end-to-start,
and covers `[0, 86400)`, hence at least 23 hours. Without the duration
restriction the claim is false (see the counterexample): a two-episode short
block leaves one third of its commercial budget as a gap. -/
theorem claim_C1_amended (cid : String) (metadata : Metadata)
    (time_slots : String → List String) (cursors : Cursors)
    (shuffles : ℕ → ℕ → ℕ → List Commercial) (fuel k : ℕ) (dlow : ℚ)
    (hmed : ∀ s e, e ∈ get_series_episodes s metadata →
      900 ≤ e.duration ∧ e.duration < 1680)
    (h0 : 0 < dlow) (h30 : dlow ≤ 30)
    (hd : ∀ b j r c, c ∈ shuffles b j r → dlow ≤ c.duration)
    (hne : ∀ b j r, shuffles b j r ≠ [])
    (hk : 1800 ≤ (k : ℚ) * dlow) (hkf : k ≤ fuel) :
    dailyInvariantHolds
      (generate_daily_channel_entries cid metadata time_slots cursors shuffles fuel).1 := by
  unfold generate_daily_channel_entries
  rw [List.range_eq_range']
  dsimp only
  have hinit_spans : Spans 0 [testEntry 0 3600] ((3600 + 0 * 1800 : ℕ) : ℚ) := by
    refine ⟨rfl, ?_⟩
    show (3600 : ℚ) = ((3600 + 0 * 1800 : ℕ) : ℚ)
    norm_num
  have hinit_pos : ∀ e ∈ [testEntry 0 3600], e.start < e.end_ := by
    intro e he
    rw [List.mem_singleton] at he
    rw [he]
    show (0 : ℚ) < 3600
    norm_num
  obtain ⟨⟨rest, hrest⟩, hspans, hpos⟩ := foldl_processBlock_inv cid metadata
    time_slots (get_commercials metadata) shuffles fuel k dlow hmed h0 h30 hd hne
    hk hkf 46 0 { entries := [testEntry 0 3600], cursors := cursors }
    ⟨[], rfl⟩ hinit_spans hinit_pos
  have hend : ((3600 + (0 + 46) * 1800 : ℕ) : ℚ) = 86400 := by norm_num
  rw [hend] at hspans
  refine ⟨?_, hspans.chain', hspans.start_lt_chain' hpos, ?_⟩
  · rw [hrest]
    rfl
  · have hne2 : ((List.range' 0 46).foldl
        (fun s b => processBlock cid metadata time_slots (get_commercials metadata)
          shuffles fuel b s)
        { entries := [testEntry 0 3600], cursors := cursors }).entries ≠ [] := by
      rw [hrest]
      exact List.cons_ne_nil _ _
    rw [hspans.getLast_end hne2]
    norm_num

/-- Witness for C1 amended: an all-test-pattern day (empty metadata and slot
map) satisfies the invariant. -/
theorem claim_C1_amended_witness :
    (∀ s e, e ∈ get_series_episodes s ([] : Metadata) →
      900 ≤ e.duration ∧ e.duration < 1680) ∧
    dailyInvariantHolds
      (generate_daily_channel_entries "ch1" ([] : Metadata) (fun _ => [])
        (fun _ _ => none) (fun _ _ _ => commsW) 60).1 := by
  have hmed : ∀ s e, e ∈ get_series_episodes s ([] : Metadata) →
      900 ≤ e.duration ∧ e.duration < 1680 := by
    intro s e he
    simp [get_series_episodes] at he
  refine ⟨hmed, ?_⟩
  exact claim_C1_amended "ch1" [] (fun _ => []) (fun _ _ => none)
    (fun _ _ _ => commsW) 60 60 30 hmed (by norm_num) (by norm_num)
    (fun b j r c hc => by
      rw [commsW, List.mem_singleton] at hc
      rw [hc])
    (fun b j r => by simp [commsW])
    (by norm_num) (le_refl 60)

/-- Counterexample metadata: one series `SA` with a single 12-minute (720 s)
episode, which `calculate_block_structure` classifies as `short`
(two episodes per block). -/
def mdShort : Metadata :=
  [("sa1", { category := "tv_episode", series := some "SA", season := some 1,
             episode := some 1, duracion := some 720,
             series_path := some "SA/sa1" })]

/-- Counterexample weekly slots: `SA` occupies the first early-morning slot;
everything else is out of range (test pattern). -/
def slotsShort : String → List String := fun t =>
  if t = "early_morning" then ["SA"] else []

set_option maxHeartbeats 8000000 in
/-- Claim C1, counterexample: with a single short (12-minute) series
scheduled at 04:00, the generated channel list is not contiguous — the
two-episode block ends 120 s short of its block boundary (second 5280 instead
of 5400), so the daily-schedule invariant fails. -/
theorem claim_C1_counterexample :
    ¬ dailyInvariantHolds
      (generate_daily_channel_entries "ch1" mdShort slotsShort (fun _ _ => none)
        (fun _ _ _ => []) 8).1 := by
  repeat first
  | (simp [dailyInvariantHolds, generate_daily_channel_entries, processBlock,
      get_slot_index_for_time,
      get_time_of_day_for_hour, time_of_day_range_start, peek_next_episode_for_channel,
      get_series_episodes, pyOrInt, pyOrRat, cursorLastIndex, calculate_block_structure,
      collect_episodes, get_next_episode_for_channel, generate_block_schedule,
      multiEpisodeEntries, singleEpisodeEntries, build_commercial_sequence,
      commSeqPlaceholderLoop, commSeqPoolLoop, commSeqSum, commEntriesFrom,
      get_commercials, testEntry, mdShort, slotsShort, List.mergeSort_nil,
      List.mergeSort_singleton, List.filterMap_cons, List.filterMap_nil,
      List.range_succ, List.chain'_cons])
  | (norm_num [dailyInvariantHolds, generate_daily_channel_entries, processBlock,
      get_slot_index_for_time,
      get_time_of_day_for_hour, time_of_day_range_start, peek_next_episode_for_channel,
      get_series_episodes, pyOrInt, pyOrRat, cursorLastIndex, calculate_block_structure,
      collect_episodes, get_next_episode_for_channel, generate_block_schedule,
      multiEpisodeEntries, singleEpisodeEntries, build_commercial_sequence,
      commSeqPlaceholderLoop, commSeqPoolLoop, commSeqSum, commEntriesFrom,
      get_commercials, testEntry, mdShort, slotsShort, List.mergeSort_nil,
      List.mergeSort_singleton, List.filterMap_cons, List.filterMap_nil,
      List.range_succ, List.chain'_cons])

/-- The segments emitted for the `k`-th half-hour block of the daily
generation: exactly what the k-th iteration of the 46-block loop of
`generate_daily_schedule` appends to the channel's entry list. -/
def emittedForBlock (cid : String) (metadata : Metadata)
    (time_slots : String → List String) (cursors : Cursors)
    (shuffles : ℕ → ℕ → ℕ → List Commercial) (fuel : ℕ) (k : ℕ) : List Entry :=
  let commercials := get_commercials metadata
  let st_k := (List.range k).foldl
    (fun s b => processBlock cid metadata time_slots commercials shuffles fuel b s)
    { entries := [testEntry 0 3600], cursors := cursors }
  ((processBlock cid metadata time_slots commercials shuffles fuel k st_k).entries).drop
    st_k.entries.length

set_option maxHeartbeats 8000000 in
/-- Claim C2, counterexample: the 04:00 block of the schedule generated for
the short (12-minute) series emits only placeholder and episode segments, and
their durations sum to 1680 s — not 1800 s: the two-episode layout emits one
break of `commercial_budget / 3` per episode, leaving the last third
(120 s here) unscheduled. -/
theorem claim_C2_counterexample :
    emittedForBlock "ch1" mdShort slotsShort (fun _ _ => none)
        (fun _ _ _ => []) 8 0 ≠ []
    ∧ (∀ e ∈ emittedForBlock "ch1" mdShort slotsShort (fun _ _ => none)
        (fun _ _ _ => []) 8 0, e.type ≠ SegType.test_pattern)
    ∧ entriesDurSum (emittedForBlock "ch1" mdShort slotsShort (fun _ _ => none)
        (fun _ _ _ => []) 8 0) = 1680
    ∧ ¬ entriesDurSum (emittedForBlock "ch1" mdShort slotsShort (fun _ _ => none)
        (fun _ _ _ => []) 8 0) = 1800 := by
  repeat first
  | (simp [dailyInvariantHolds, generate_daily_channel_entries, processBlock,
      get_slot_index_for_time, emittedForBlock, entriesDurSum,
      get_time_of_day_for_hour, time_of_day_range_start, peek_next_episode_for_channel,
      get_series_episodes, pyOrInt, pyOrRat, cursorLastIndex, calculate_block_structure,
      collect_episodes, get_next_episode_for_channel, generate_block_schedule,
      multiEpisodeEntries, singleEpisodeEntries, build_commercial_sequence,
      commSeqPlaceholderLoop, commSeqPoolLoop, commSeqSum, commEntriesFrom,
      get_commercials, testEntry, mdShort, slotsShort, List.mergeSort_nil,
      List.mergeSort_singleton, List.filterMap_cons, List.filterMap_nil,
      List.range_succ, List.chain'_cons])
  | (norm_num [dailyInvariantHolds, generate_daily_channel_entries, processBlock,
      get_slot_index_for_time, emittedForBlock, entriesDurSum,
      get_time_of_day_for_hour, time_of_day_range_start, peek_next_episode_for_channel,
      get_series_episodes, pyOrInt, pyOrRat, cursorLastIndex, calculate_block_structure,
      collect_episodes, get_next_episode_for_channel, generate_block_schedule,
      multiEpisodeEntries, singleEpisodeEntries, build_commercial_sequence,
      commSeqPlaceholderLoop, commSeqPoolLoop, commSeqSum, commEntriesFrom,
      get_commercials, testEntry, mdShort, slotsShort, List.mergeSort_nil,
      List.mergeSort_singleton, List.filterMap_cons, List.filterMap_nil,
      List.range_succ, List.chain'_cons])

/-- Counterexample metadata for the multi-block branch: one series `LA` with
a single one-hour (3600 s) episode (`very_long`, spanning 2 blocks). -/
def mdLong : Metadata :=
  [("la1", { category := "tv_episode", series := some "LA", season := some 1,
             episode := some 1, duracion := some 3600,
             series_path := some "LA/la1" })]

/-- Counterexample weekly slots for the multi-block branch: `LA` occupies the
first early-morning slot. -/
def slotsLong : String → List String := fun t =>
  if t = "early_morning" then ["LA"] else []

/-- The single 3600 s (one-hour) episode of series `LA` used for C4. -/
def epLA : Episode :=
  { video_id := "la1", season := 1, episode := 1, duration := 3600,
    series_path := some "LA/la1" }

set_option maxHeartbeats 2000000 in
/-- Claim C4: a 3600 s episode is classified `very_long` spanning 2 blocks
with `per_block = 1800`; the span layout overwrites the `base_timestamp` of
both episode parts of spanned block `i` with `i * per_block`: the second part
of block 0 gets 0 instead of the claimed `0 * 1800 + 900 = 900`, and the
second part of block 1 gets 1800 instead of the claimed
`1 * 1800 + 900 = 2700` — the sub-half offset is lost, so each half of a
spanned block replays the same source position. -/
theorem claim_C4_base_timestamp :
    calculate_block_structure epLA.duration
      = { type := "very_long", episodes_per_block := 1, blocks := 2 }
    ∧ spanBlockEntries 3600 epLA 2 epLA.duration [] (fun _ _ => []) 8
      = [{ start := 3600, end_ := 4500, type := .episode, video_id := "la1",
           series_path := some "LA/la1", base_timestamp := 0 },
         { start := 4500, end_ := 5400, type := .episode, video_id := "la1",
           series_path := some "LA/la1", base_timestamp := 0 },
         { start := 5400, end_ := 6300, type := .episode, video_id := "la1",
           series_path := some "LA/la1", base_timestamp := 1800 },
         { start := 6300, end_ := 7200, type := .episode, video_id := "la1",
           series_path := some "LA/la1", base_timestamp := 1800 }]
    ∧ (0 : ℚ) ≠ 0 * 1800 + 1800 / 2
    ∧ (1800 : ℚ) ≠ 1 * 1800 + 1800 / 2 := by
  refine ⟨?_, ?_, by norm_num, by norm_num⟩
  · have h2 : (2 : ℤ) ≤ Rat.floor ((epLA.duration + 1800 - 1) / 1800) :=
      Rat.le_floor.2 (by norm_num [epLA])
    have h3 : ¬ (3 : ℤ) ≤ Rat.floor ((epLA.duration + 1800 - 1) / 1800) :=
      fun hc => absurd (Rat.le_floor.1 hc) (by norm_num [epLA])
    have hfloor : Rat.floor ((epLA.duration + 1800 - 1) / 1800 : ℚ) = 2 := by omega
    rw [calculate_block_structure]
    rw [if_neg (by norm_num [epLA]), if_neg (by norm_num [epLA]),
      if_neg (by norm_num [epLA]), if_neg (by norm_num [epLA]),
      if_neg (by norm_num [epLA])]
    rw [hfloor]
    rfl
  · repeat first
    | (simp [spanBlockEntries, epLA, dailyInvariantHolds, generate_daily_channel_entries, processBlock,
      get_slot_index_for_time, emittedForBlock, entriesDurSum,
      get_time_of_day_for_hour, time_of_day_range_start, peek_next_episode_for_channel,
      get_series_episodes, pyOrInt, pyOrRat, cursorLastIndex, calculate_block_structure,
      collect_episodes, get_next_episode_for_channel, generate_block_schedule,
      multiEpisodeEntries, singleEpisodeEntries, build_commercial_sequence,
      commSeqPlaceholderLoop, commSeqPoolLoop, commSeqSum, commEntriesFrom,
      get_commercials, testEntry, mdShort, slotsShort, List.mergeSort_nil,
      List.mergeSort_singleton, List.filterMap_cons, List.filterMap_nil,
      List.range_succ, List.chain'_cons])
    | (norm_num [spanBlockEntries, epLA, dailyInvariantHolds, generate_daily_channel_entries, processBlock,
      get_slot_index_for_time, emittedForBlock, entriesDurSum,
      get_time_of_day_for_hour, time_of_day_range_start, peek_next_episode_for_channel,
      get_series_episodes, pyOrInt, pyOrRat, cursorLastIndex, calculate_block_structure,
      collect_episodes, get_next_episode_for_channel, generate_block_schedule,
      multiEpisodeEntries, singleEpisodeEntries, build_commercial_sequence,
      commSeqPlaceholderLoop, commSeqPoolLoop, commSeqSum, commEntriesFrom,
      get_commercials, testEntry, mdShort, slotsShort, List.mergeSort_nil,
      List.mergeSort_singleton, List.filterMap_cons, List.filterMap_nil,
      List.range_succ, List.chain'_cons])
